import Mathlib

/-!
Shallow embedding of the BB Missing File Manager Blender add-on
(`src/__init__.py`) and verification of its specification claims.

Modelling conventions, used throughout this development:

* Paths are `String`s.  `bpy.path.abspath` is modelled as the identity:
  all stored paths are taken to be already absolute.
* The filesystem is a list `fs : List String` of the paths that exist on
  disk (files and directories alike); `os.path.exists p` is `fs.contains p`.
* `glob.glob` applied to the patterns the add-on builds (literal text in
  which `<UDIM>` has been replaced by `[0-9][0-9][0-9][0-9]`) is modelled
  by matching that pattern against every existing path in `fs`; the
  source paths are assumed to contain no other glob metacharacters.
-/

namespace BB

/-- The UDIM placeholder token `<UDIM>` as a character list. -/
def udimTok : List Char := ['<', 'U', 'D', 'I', 'M', '>']

/-- Boolean list-prefix test: `isPre a b` holds when `a` begins `b`. -/
def isPre : List Char → List Char → Bool
  | [], _ => true
  | _ :: _, [] => false
  | a :: as, b :: bs => a == b && isPre as bs

/-- `tok` occurs as a contiguous segment of `s` (Python's `tok in s`). -/
def containsSeg (tok s : List Char) : Bool :=
  (List.range (s.length + 1)).any fun i => isPre tok (s.drop i)

/-- Python's `"<UDIM>" in filepath`. -/
def hasUdim (s : String) : Bool := containsSeg udimTok s.toList

/-- The first four characters exist and are decimal digits
(one `[0-9][0-9][0-9][0-9]` group of the substituted glob pattern). -/
def dig4 : List Char → Bool
  | d1 :: d2 :: d3 :: d4 :: _ =>
    d1.isDigit && d2.isDigit && d3.isDigit && d4.isDigit
  | _ => false

/-- `udimMatchL pat cand` holds when the path `cand` matches the glob
pattern obtained from `pat` by replacing every occurrence of `<UDIM>`
(leftmost first, as `str.replace` does) with `[0-9][0-9][0-9][0-9]`,
all remaining characters being matched literally. -/
def udimMatchL : List Char → List Char → Bool
  | [], [] => true
  | [], _ :: _ => false
  | '<' :: 'U' :: 'D' :: 'I' :: 'M' :: '>' :: ps, cand =>
      dig4 cand && udimMatchL ps (cand.drop 4)
  | _ :: _, [] => false
  | p :: ps, c :: cs => p == c && udimMatchL ps cs

/-- `check_udim_exists` (src/__init__.py lines 18–30): existence check for
a path that may contain the `<UDIM>` wildcard. -/
def check_udim_exists (filepath : String) (fs : List String) : Bool :=
  if hasUdim filepath = false then
    fs.contains filepath
  else
    fs.any fun f => udimMatchL filepath.toList f.toList

/-- Declarative reading of spec §4.1: `cand` is a concrete tile name for
the wildcarded `pat` — every `<UDIM>` occurrence (leftmost first) is
replaced by four digits and every other character matches literally. -/
inductive IsTile : List Char → List Char → Prop where
  | nil : IsTile [] []
  | tok {pat cand : List Char} {d1 d2 d3 d4 : Char} :
      d1.isDigit = true → d2.isDigit = true → d3.isDigit = true →
      d4.isDigit = true → IsTile pat cand →
      IsTile (udimTok ++ pat) (d1 :: d2 :: d3 :: d4 :: cand)
  | lit {pat cand : List Char} {c : Char} :
      isPre udimTok (c :: pat) = false → IsTile pat cand →
      IsTile (c :: pat) (c :: cand)

theorem isPre_iff_exists (a b : List Char) : isPre a b = true ↔ ∃ r, b = a ++ r := by
  induction a generalizing b with
  | nil => simp [isPre]
  | cons x xs ih =>
    cases b with
    | nil => simp [isPre]
    | cons y ys =>
      simp only [isPre, Bool.and_eq_true, beq_iff_eq, ih, List.cons_append,
        List.cons.injEq]
      constructor
      · rintro ⟨hxy, r, hr⟩
        exact ⟨r, hxy.symm, hr⟩
      · rintro ⟨r, hxy, hr⟩
        exact ⟨hxy.symm, r, hr⟩

theorem isPre_self_append (a r : List Char) : isPre a (a ++ r) = true :=
  (isPre_iff_exists a (a ++ r)).mpr ⟨r, rfl⟩

theorem isPre_length {a b : List Char} (h : isPre a b = true) :
    a.length ≤ b.length := by
  obtain ⟨r, hr⟩ := (isPre_iff_exists a b).mp h
  subst hr
  simp

theorem drop_of_isPre {a b : List Char} (h : isPre a b = true) :
    b = a ++ b.drop a.length := by
  obtain ⟨r, hr⟩ := (isPre_iff_exists a b).mp h
  subst hr
  simp

theorem tok_shape {p : Char} {ps : List Char}
    (h : isPre udimTok (p :: ps) = true) :
    ∃ ps', p :: ps = '<' :: 'U' :: 'D' :: 'I' :: 'M' :: '>' :: ps' := by
  obtain ⟨r, hr⟩ := (isPre_iff_exists _ _).mp h
  exact ⟨r, hr⟩

theorem udimMatchL_tok (ps cand : List Char) :
    udimMatchL ('<' :: 'U' :: 'D' :: 'I' :: 'M' :: '>' :: ps) cand =
      (dig4 cand && udimMatchL ps (cand.drop 4)) := by
  cases cand with
  | nil => rfl
  | cons c cs => rfl

theorem udimMatchL_cons_nil (p : Char) (ps : List Char) :
    udimMatchL (p :: ps) [] = false := by
  by_cases h : isPre udimTok (p :: ps) = true
  · obtain ⟨ps', he⟩ := tok_shape h
    rw [he]
    rfl
  · rw [udimMatchL]
    intro ps1 hp hps
    rw [hp, hps] at h
    exact h (by simp [isPre, udimTok])

theorem udimMatchL_lit {p : Char} {ps : List Char} (c : Char) (cs : List Char)
    (h : isPre udimTok (p :: ps) = false) :
    udimMatchL (p :: ps) (c :: cs) = (p == c && udimMatchL ps cs) := by
  rw [udimMatchL]
  intro ps1 hp hps
  rw [hp, hps] at h
  exact absurd h (by simp [isPre, udimTok])

theorem isPre_false_of_shape {p : Char} {ps : List Char}
    (h : ∀ ps1 : List Char,
      p = '<' → ps = 'U' :: 'D' :: 'I' :: 'M' :: '>' :: ps1 → False) :
    isPre udimTok (p :: ps) = false := by
  cases hv : isPre udimTok (p :: ps) with
  | false => rfl
  | true =>
    obtain ⟨ps', he⟩ := tok_shape hv
    rw [List.cons.injEq] at he
    exact absurd (h ps' he.1 he.2) id

theorem dig4_eq_true {l : List Char} (h : dig4 l = true) :
    ∃ d1 d2 d3 d4 r, l = d1 :: d2 :: d3 :: d4 :: r ∧
      d1.isDigit = true ∧ d2.isDigit = true ∧ d3.isDigit = true ∧
      d4.isDigit = true := by
  match l, h with
  | d1 :: d2 :: d3 :: d4 :: r, h =>
    simp only [dig4, Bool.and_eq_true] at h
    exact ⟨d1, d2, d3, d4, r, rfl, h.1.1.1, h.1.1.2, h.1.2, h.2⟩

theorem udimMatchL_of_isTile {pat cand : List Char} (h : IsTile pat cand) :
    udimMatchL pat cand = true := by
  induction h with
  | nil => rfl
  | @tok pat' cand' d1 d2 d3 d4 h1 h2 h3 h4 _ ih =>
    show udimMatchL ('<' :: 'U' :: 'D' :: 'I' :: 'M' :: '>' :: pat')
      (d1 :: d2 :: d3 :: d4 :: cand') = true
    rw [udimMatchL_tok]
    simp [dig4, h1, h2, h3, h4, ih]
  | @lit pat' cand' c hc _ ih =>
    rw [udimMatchL_lit _ _ hc]
    simp [ih]

theorem isTile_of_udimMatchL : ∀ pat cand : List Char,
    udimMatchL pat cand = true → IsTile pat cand := by
  intro pat cand
  induction pat, cand using udimMatchL.induct with
  | case1 => intro _; exact IsTile.nil
  | case2 c cs =>
    intro hm
    exact absurd hm (by simp [udimMatchL])
  | case3 ps cand ih =>
    rw [udimMatchL_tok]
    simp only [Bool.and_eq_true]
    rintro ⟨hd, hm⟩
    obtain ⟨d1, d2, d3, d4, r, hshape, h1, h2, h3, h4⟩ := dig4_eq_true hd
    have hdrop4 : cand.drop 4 = r := by rw [hshape]; simp
    have htile := ih hm
    rw [hdrop4] at htile
    rw [hshape]
    show IsTile (udimTok ++ ps) (d1 :: d2 :: d3 :: d4 :: r)
    exact IsTile.tok h1 h2 h3 h4 htile
  | case4 p ps hshape =>
    intro hm
    rw [udimMatchL_cons_nil] at hm
    exact absurd hm (by simp)
  | case5 p ps c cs hshape ih =>
    have hn : isPre udimTok (p :: ps) = false := isPre_false_of_shape hshape
    rw [udimMatchL_lit _ _ hn]
    simp only [Bool.and_eq_true, beq_iff_eq]
    rintro ⟨hpc, hm⟩
    subst hpc
    exact IsTile.lit hn (ih hm)

theorem udimMatchL_iff_isTile (pat cand : List Char) :
    udimMatchL pat cand = true ↔ IsTile pat cand :=
  ⟨isTile_of_udimMatchL pat cand, udimMatchL_of_isTile⟩

/-- Claim C5: on a path containing the `<UDIM>` token,
`check_udim_exists` substitutes the token with a 4-digit pattern and
returns `true` iff at least one concrete tile file matches on disk; on a
path without the token it returns the literal existence of the path. -/
theorem check_udim_exists_correct (fp : String) (fs : List String) :
    (hasUdim fp = true →
      (check_udim_exists fp fs = true ↔ ∃ c ∈ fs, IsTile fp.toList c.toList)) ∧
    (hasUdim fp = false → check_udim_exists fp fs = fs.contains fp) := by
  constructor
  · intro h
    rw [check_udim_exists]
    simp only [h]
    simp [List.any_eq_true, udimMatchL_iff_isTile]
  · intro h
    rw [check_udim_exists]
    simp [h]

/-- Witness for C5: `tile.<UDIM>.png` against a folder holding exactly
`tile.1001.png` — the hypotheses of `check_udim_exists_correct` hold and
the existence check succeeds. -/
theorem check_udim_exists_correct_witness :
    hasUdim "tile.<UDIM>.png" = true ∧
      (check_udim_exists "tile.<UDIM>.png" ["tile.1001.png"] = true ↔
        ∃ c ∈ ["tile.1001.png"], IsTile "tile.<UDIM>.png".toList c.toList) :=
  ⟨by decide, (check_udim_exists_correct "tile.<UDIM>.png" ["tile.1001.png"]).1 (by decide)⟩

/-! ### Path utilities (`os.path` on POSIX, as the add-on uses them) -/

/-- Everything after the last `/` (`os.path.basename`). -/
def baseNameL : List Char → List Char
  | [] => []
  | c :: cs => if '/' ∈ cs then baseNameL cs else if c = '/' then cs else c :: cs

/-- `os.path.basename` on strings. -/
def basename (s : String) : String := (baseNameL s.toList).asString

/-- `d` with a trailing slash added when needed: the directory part of
`os.path.join d f` for a relative `f`. -/
def dirSlash (d : String) : String :=
  if d.toList = [] then d
  else if d.toList.getLast? = some '/' then d else d ++ "/"

/-- `os.path.join` for a single component (POSIX semantics). -/
def pathJoin (d f : String) : String :=
  if f.toList.head? = some '/' then f else dirSlash d ++ f

/-- `os.path.dirname` (POSIX semantics). -/
def dirnameL (cs : List Char) : List Char :=
  let head := (cs.reverse.dropWhile (fun c => !(c == '/'))).reverse
  if head.all (fun c => c == '/') then head
  else (head.reverse.dropWhile (fun c => c == '/')).reverse

/-- `os.path.dirname` on strings. -/
def dirname (s : String) : String := (dirnameL s.toList).asString

/-- Python `filepath.rstrip("/\\")` as used by the cache scanner. -/
def rstripSlashes (s : String) : String :=
  ((s.toList.reverse.dropWhile (fun c => c == '/' || c == '\\')).reverse).asString

/-- A path `cand` matches the glob pattern
`os.path.join dir (filename.replace "<UDIM>" "[0-9][0-9][0-9][0-9]")`:
the directory part of the pattern is matched literally (it contains no
glob metacharacters) and the basename part through `udimMatchL`. -/
def joinTileMatch (dir filename cand : String) : Bool :=
  isPre (dirSlash dir).toList cand.toList &&
    udimMatchL filename.toList (cand.toList.drop (dirSlash dir).toList.length)

/-- `find_udim_file` (src/__init__.py lines 33–51): look for `filepath`'s
basename inside `search_directory`, treating `<UDIM>` as a tile wildcard;
on a hit the path `os.path.join search_directory filename` — with the
placeholder kept, not a concrete tile — is returned. -/
def find_udim_file (filepath search_directory : String) (fs : List String) :
    Option String :=
  if hasUdim filepath = false then
    let filename := basename filepath
    let potential_path := pathJoin search_directory filename
    if fs.contains potential_path then some potential_path else none
  else
    let filename := basename filepath
    if fs.any fun f => joinTileMatch search_directory filename f then
      some (pathJoin search_directory filename)
    else none

/-! ### Lemmas about the path utilities -/

theorem baseNameL_drop : ∀ cs : List Char, ∃ k, baseNameL cs = cs.drop k := by
  intro cs
  induction cs with
  | nil => exact ⟨0, rfl⟩
  | cons c cs ih =>
    rw [baseNameL]
    by_cases h1 : '/' ∈ cs
    · obtain ⟨k, hk⟩ := ih
      exact ⟨k + 1, by simp [h1, hk]⟩
    · by_cases h2 : c = '/'
      · exact ⟨1, by simp [h1, h2]⟩
      · exact ⟨0, by simp [h1, h2]⟩

theorem baseNameL_no_slash : ∀ cs : List Char, '/' ∉ baseNameL cs := by
  intro cs
  induction cs with
  | nil => simp [baseNameL]
  | cons c cs ih =>
    rw [baseNameL]
    by_cases h1 : '/' ∈ cs
    · simpa [h1] using ih
    · by_cases h2 : c = '/'
      · simp [h1, h2]
      · simp [h1, h2]
        exact fun hc => h2 hc.symm

theorem containsSeg_iff (tok s : List Char) :
    containsSeg tok s = true ↔
      ∃ i, i < s.length + 1 ∧ isPre tok (s.drop i) = true := by
  simp [containsSeg, List.any_eq_true, List.mem_range]

theorem containsSeg_of_drop {tok s : List Char} {k : Nat} (htok : tok ≠ [])
    (h : containsSeg tok (s.drop k) = true) : containsSeg tok s = true := by
  rw [containsSeg_iff] at h ⊢
  obtain ⟨i, hi, hp⟩ := h
  refine ⟨k + i, ?_, by rwa [List.drop_drop] at hp⟩
  by_cases hk : k + i ≤ s.length
  · omega
  · exfalso
    have : s.drop (k + i) = [] := by
      apply List.drop_eq_nil_of_le
      omega
    rw [List.drop_drop] at hp
    rw [this] at hp
    cases tok with
    | nil => exact htok rfl
    | cons t ts => simp [isPre] at hp

theorem udimTok_ne_nil : udimTok ≠ [] := by simp [udimTok]

theorem hasUdim_of_basename {s : String} (h : hasUdim (basename s) = true) :
    hasUdim s = true := by
  obtain ⟨k, hk⟩ := baseNameL_drop s.toList
  have h' : containsSeg udimTok (s.toList.drop k) = true := by
    rw [← hk]
    exact h
  exact containsSeg_of_drop udimTok_ne_nil h'

theorem isPre_restrict : ∀ {t x : List Char} (y : List Char),
    isPre t (x ++ y) = true → t.length ≤ x.length → isPre t x = true := by
  intro t
  induction t with
  | nil => intro x y _ _; rfl
  | cons a ts ih =>
    intro x y h hl
    cases x with
    | nil => simp at hl
    | cons b xs =>
      rw [List.cons_append] at h
      rw [isPre] at h ⊢
      rw [Bool.and_eq_true] at h ⊢
      exact ⟨h.1, ih y h.2 (by simpa using hl)⟩

theorem tok_inside {s : List Char} {p i : Nat} (hp : p < s.length)
    (hsl : s[p]? = some '/') (hi : isPre udimTok (s.drop i) = true)
    (h1 : i ≤ p) (h2 : p < i + 6) : False := by
  obtain ⟨r, hr⟩ := (isPre_iff_exists _ _).mp hi
  have hji : i + (p - i) = p := by omega
  have hdi : (s.drop i)[p - i]? = s[p]? := by
    rw [List.getElem?_drop, hji]
  have htok : udimTok[p - i]? = some '/' := by
    rw [← @List.getElem?_append_left Char udimTok r (p - i)
        (by simp [udimTok]; omega),
      ← hr, hdi]
    exact hsl
  have hj6 : p - i < 6 := by omega
  interval_cases h : (p - i) <;> simp [udimTok] at htok

theorem noTok_slashEnd {a : List Char} (b : List Char)
    (ha : containsSeg udimTok a = false)
    (hend : a = [] ∨ a.getLast? = some '/') :
    ∀ i, i < a.length → isPre udimTok ((a ++ b).drop i) = false := by
  intro i hi
  cases hv : isPre udimTok ((a ++ b).drop i) with
  | false => rfl
  | true =>
    exfalso
    have hanil : a ≠ [] := by
      intro h
      rw [h] at hi
      simp at hi
    have hlast : a.getLast? = some '/' := by
      cases hend with
      | inl h => exact absurd h hanil
      | inr h => exact h
    by_cases hcase : i + 6 ≤ a.length
    · have hd : (a ++ b).drop i = a.drop i ++ b := by
        rw [List.drop_append_eq_append_drop, Nat.sub_eq_zero_of_le (by omega),
          List.drop_zero]
      rw [hd] at hv
      have hin : isPre udimTok (a.drop i) = true :=
        isPre_restrict b hv (by simp [udimTok, List.length_drop]; omega)
      have : containsSeg udimTok a = true :=
        (containsSeg_iff _ _).mpr ⟨i, by omega, hin⟩
      rw [ha] at this
      exact Bool.false_ne_true this
    · have hpa : a.length - 1 < a.length := by omega
      have hget : (a ++ b)[a.length - 1]? = some '/' := by
        rw [List.getElem?_append_left hpa, ← List.getLast?_eq_getElem?]
        exact hlast
      exact tok_inside (p := a.length - 1) (i := i)
        (by simp [List.length_append]; omega) hget hv (by omega) (by omega)

theorem containsSeg_append_slash {dl : List Char}
    (h : containsSeg udimTok dl = false) :
    containsSeg udimTok (dl ++ ['/']) = false := by
  cases hv : containsSeg udimTok (dl ++ ['/']) with
  | false => rfl
  | true =>
    exfalso
    rw [containsSeg_iff] at hv
    obtain ⟨i, hi, hp⟩ := hv
    have hlen := isPre_length hp
    rw [List.length_drop, List.length_append] at hlen
    have hlen6 : (6 : Nat) ≤ dl.length + 1 - i := by
      simpa [udimTok] using hlen
    by_cases h6 : i + 6 ≤ dl.length
    · have hd : (dl ++ ['/']).drop i = dl.drop i ++ ['/'] := by
        rw [List.drop_append_eq_append_drop, Nat.sub_eq_zero_of_le (by omega),
          List.drop_zero]
      rw [hd] at hp
      have hin : isPre udimTok (dl.drop i) = true :=
        isPre_restrict _ hp (by simp [udimTok, List.length_drop]; omega)
      have hcon : containsSeg udimTok dl = true :=
        (containsSeg_iff _ _).mpr ⟨i, by omega, hin⟩
      rw [h] at hcon
      exact Bool.false_ne_true hcon
    · have hget : (dl ++ ['/'])[dl.length]? = some '/' := by
        rw [List.getElem?_append_right (le_refl _)]
        simp
      refine tok_inside (p := dl.length) (i := i)
        (by simp [List.length_append]) hget hp (by omega) (by omega)

theorem hasUdim_dirSlash {d : String} (h : hasUdim d = false) :
    hasUdim (dirSlash d) = false := by
  rw [dirSlash]
  split
  · exact h
  · split
    · exact h
    · show containsSeg udimTok (d ++ "/").toList = false
      rw [show (d ++ "/").toList = d.toList ++ ['/'] from String.data_append d "/"]
      exact containsSeg_append_slash h

theorem dirSlash_last (d : String) :
    (dirSlash d).toList = [] ∨ ((dirSlash d).toList).getLast? = some '/' := by
  rw [dirSlash]
  split
  · left
    assumption
  · split
    · right
      assumption
    · right
      rw [show (d ++ "/").toList = d.toList ++ ['/'] from String.data_append d "/"]
      exact List.getLast?_concat _

theorem udimMatchL_append : ∀ (pre pat : List Char),
    (∀ i, i < pre.length → isPre udimTok ((pre ++ pat).drop i) = false) →
    ∀ cand, udimMatchL (pre ++ pat) cand =
      (isPre pre cand && udimMatchL pat (cand.drop pre.length)) := by
  intro pre
  induction pre with
  | nil =>
    intro pat _ cand
    simp [isPre]
  | cons c pre' ih =>
    intro pat hov cand
    have h0 : isPre udimTok (c :: (pre' ++ pat)) = false := by
      have := hov 0 (by simp)
      simpa using this
    have hov' : ∀ i, i < pre'.length →
        isPre udimTok ((pre' ++ pat).drop i) = false := by
      intro i hi
      have := hov (i + 1) (by simp; omega)
      simpa using this
    cases cand with
    | nil =>
      show udimMatchL (c :: (pre' ++ pat)) [] = _
      rw [udimMatchL_cons_nil]
      simp [isPre]
    | cons x cs =>
      show udimMatchL (c :: (pre' ++ pat)) (x :: cs) = _
      rw [udimMatchL_lit _ _ h0]
      rw [ih pat hov' cs]
      show _ = ((c == x && isPre pre' cs) && _)
      rw [Bool.and_assoc]
      congr 1

theorem containsSeg_append_left {tok t : List Char} (s : List Char)
    (h : containsSeg tok t = true) : containsSeg tok (s ++ t) = true := by
  rw [containsSeg_iff] at h ⊢
  obtain ⟨i, hi, hp⟩ := h
  refine ⟨s.length + i, by simp [List.length_append]; omega, ?_⟩
  have h1 : s.drop (s.length + i) = [] := List.drop_eq_nil_of_le (by omega)
  have h2 : s.length + i - s.length = i := by omega
  rw [List.drop_append_eq_append_drop, h1, h2]
  simpa using hp

theorem pathJoin_basename (d : String) {f : String} (hno : '/' ∉ f.toList) :
    pathJoin d f = dirSlash d ++ f := by
  rw [pathJoin]
  rw [if_neg (fun hhead =>
    hno (List.mem_of_mem_head? (by simp only [Option.mem_def]; exact hhead)))]

/-- Claim C6 (amended): for a path whose basename carries the UDIM token
and a token-free search directory, `find_udim_file` succeeds iff a
concrete 4-digit tile of the wildcarded basename exists in the directory,
the returned path is the directory joined with the original wildcarded
basename (keeping the token), and `check_udim_exists` succeeds on every
returned path. -/
theorem find_udim_file_amended (fp dir : String) (fs : List String)
    (hb : hasUdim (basename fp) = true) (hd : hasUdim dir = false) :
    ((find_udim_file fp dir fs).isSome = true ↔
      ∃ c ∈ fs, isPre (dirSlash dir).toList c.toList = true ∧
        IsTile (basename fp).toList
          (c.toList.drop (dirSlash dir).toList.length)) ∧
    (∀ r, find_udim_file fp dir fs = some r →
      r = pathJoin dir (basename fp) ∧ hasUdim r = true ∧
        check_udim_exists r fs = true) := by
  have hfp : hasUdim fp = true := hasUdim_of_basename hb
  have hfind : find_udim_file fp dir fs =
      if fs.any (fun f => joinTileMatch dir (basename fp) f) then
        some (pathJoin dir (basename fp)) else none := by
    rw [find_udim_file, if_neg (by simp [hfp])]
  have hds : containsSeg udimTok (dirSlash dir).toList = false := hasUdim_dirSlash hd
  have hov : ∀ i, i < (dirSlash dir).toList.length →
      isPre udimTok (((dirSlash dir).toList ++ (basename fp).toList).drop i) = false :=
    noTok_slashEnd _ hds (dirSlash_last dir)
  have hnos : '/' ∉ (basename fp).toList := baseNameL_no_slash fp.toList
  have hjoin : pathJoin dir (basename fp) = dirSlash dir ++ basename fp :=
    pathJoin_basename dir hnos
  have hjl : (pathJoin dir (basename fp)).toList =
      (dirSlash dir).toList ++ (basename fp).toList := by
    rw [hjoin]
    exact String.data_append _ _
  have hu : hasUdim (pathJoin dir (basename fp)) = true := by
    show containsSeg udimTok (pathJoin dir (basename fp)).toList = true
    rw [hjl]
    exact containsSeg_append_left _ hb
  have hiff : (fs.any (fun f => joinTileMatch dir (basename fp) f) = true) ↔
      (∃ c ∈ fs, isPre (dirSlash dir).toList c.toList = true ∧
        IsTile (basename fp).toList
          (c.toList.drop (dirSlash dir).toList.length)) := by
    rw [List.any_eq_true]
    constructor
    · rintro ⟨c, hc, hm⟩
      rw [joinTileMatch, Bool.and_eq_true] at hm
      exact ⟨c, hc, hm.1, isTile_of_udimMatchL _ _ hm.2⟩
    · rintro ⟨c, hc, h1, h2⟩
      refine ⟨c, hc, ?_⟩
      rw [joinTileMatch, Bool.and_eq_true]
      exact ⟨h1, udimMatchL_of_isTile h2⟩
  constructor
  · rw [hfind]
    cases hany : fs.any (fun f => joinTileMatch dir (basename fp) f) with
    | true =>
      rw [if_pos rfl]
      simp only [Option.isSome_some]
      exact ⟨fun _ => hiff.mp hany, fun _ => trivial⟩
    | false =>
      rw [if_neg (by simp)]
      simp only [Option.isSome_none]
      constructor
      · intro h
        exact absurd h (by simp)
      · intro hex
        exact absurd (hiff.mpr hex) (by rw [hany]; simp)
  · intro r hr
    rw [hfind] at hr
    cases hany : fs.any (fun f => joinTileMatch dir (basename fp) f) with
    | false =>
      rw [hany] at hr
      rw [if_neg (by simp)] at hr
      exact absurd hr (by simp)
    | true =>
      rw [hany] at hr
      rw [if_pos rfl] at hr
      have hreq : r = pathJoin dir (basename fp) := by
        injection hr with h
        exact h.symm
      subst hreq
      refine ⟨rfl, hu, ?_⟩
      rw [check_udim_exists, if_neg (by simp [hu])]
      rw [List.any_eq_true]
      obtain ⟨c, hc, hm⟩ := List.any_eq_true.mp hany
      refine ⟨c, hc, ?_⟩
      rw [hjl, udimMatchL_append _ _ hov c.toList]
      exact hm

/-- Witness for C6 (amended): `b.<UDIM>.png` searched for in `/d` over a
filesystem holding `/d/b.1001.png`. -/
theorem find_udim_file_amended_witness :
    hasUdim (basename "a/b.<UDIM>.png") = true ∧
      hasUdim "/d" = false ∧
      (∀ r, find_udim_file "a/b.<UDIM>.png" "/d" ["/d/b.1001.png"] = some r →
        r = pathJoin "/d" (basename "a/b.<UDIM>.png") ∧ hasUdim r = true ∧
          check_udim_exists r ["/d/b.1001.png"] = true) :=
  ⟨by decide, by decide,
    (find_udim_file_amended "a/b.<UDIM>.png" "/d" ["/d/b.1001.png"]
      (by decide) (by decide)).2⟩

/-- Counterexample to C6 as stated: for the UDIM-wildcard path
`/x/<UDIM>/tile.png` (token in the directory component) the find returns a
path that does not retain the wildcard form — and it succeeds although no
4-digit tile exists in the searched directory. -/
theorem find_udim_file_counterexample :
    find_udim_file "/x/<UDIM>/tile.png" "/d" ["/d/tile.png"] =
      some "/d/tile.png" ∧
    hasUdim "/x/<UDIM>/tile.png" = true ∧
    hasUdim "/d/tile.png" = false := by
  refine ⟨?_, by decide, by decide⟩
  decide

/-! ### Host data model

The slice of Blender's `bpy.data` that the add-on reads and writes.
`library` holds the filepath of the owning external library when the
datablock is linked (`None` → locally owned).  `packed` models
`packed_file is not None`.  `reload_ok` models whether the host call
`image.reload()` succeeds for that image.  Writing a property of a
library-linked datablock raises in the host; a `try`/`except` around such
a write therefore leaves the datablock unchanged. -/

/-- An entry of `bpy.data.images`, or the image a texture node points at. -/
structure Image where
  name : String
  filepath : String
  packed : Bool := false
  library : Option String := none
  source_movie : Bool := false
  reload_ok : Bool := true
deriving DecidableEq

/-- A shader node (`node.type == 'TEX_IMAGE'` nodes carry an image). -/
structure Node where
  name : String
  isTexImage : Bool
  image : Option Image := none
deriving DecidableEq

/-- A material with an optional node tree. -/
structure Material where
  name : String
  use_nodes : Bool := true
  node_tree : Option (List Node) := none
deriving DecidableEq

/-- An object modifier; `hasFilepath` models `hasattr(modifier, 'filepath')`. -/
structure Modifier where
  name : String
  isMeshCache : Bool := false
  hasFilepath : Bool := true
  filepath : String := ""
deriving DecidableEq

/-- An entry of `bpy.data.objects` (material slot names may be `None`). -/
structure Obj where
  name : String
  otype : String := "MESH"
  materials : List (Option String) := []
  modifiers : List Modifier := []
deriving DecidableEq

/-- An entry of `bpy.data.movieclips`. -/
structure MovieClip where
  name : String
  filepath : String
  library : Option String := none
deriving DecidableEq

/-- An entry of `bpy.data.sounds`.  Sounds can be packed in the host
(`sound.packed_file`), though the scanner never reads that flag. -/
structure Sound where
  name : String
  filepath : String
  library : Option String := none
  packed : Bool := false
deriving DecidableEq

/-- The collections of `bpy.data` that the add-on traverses. -/
structure BlendData where
  materials : List Material := []
  images : List Image := []
  movieclips : List MovieClip := []
  sounds : List Sound := []
  objects : List Obj := []
deriving DecidableEq

/-! ### The scanner (`FILE_OT_scan_missing.execute`, src lines 100–234) -/

/-- One value of the scanner's `missing_files` Python dict. -/
structure Entry where
  file_name : String
  file_type : String
  materials : List String := []
  objects : List String := []
  node_names : List String := []
  is_linked : Bool := false
  library_path : String := ""
  modifier_name : String := ""
deriving DecidableEq

/-- The scanner's `missing_files` dict: an insertion-ordered association
list keyed by filepath, as a Python dict is. -/
abbrev Dict := List (String × Entry)

/-- Python `filepath in missing_files`. -/
def dictContains (d : Dict) (k : String) : Bool := d.any fun p => p.1 == k

/-- `missing_files[filepath] = v` for a fresh key (the scanner only ever
assigns a whole entry after a `not in` test). -/
def dictAdd (d : Dict) (k : String) (v : Entry) : Dict :=
  if dictContains d k then d else d ++ [(k, v)]

/-- In-place mutation of the entry stored under `k`. -/
def dictModify (d : Dict) (k : String) (f : Entry → Entry) : Dict :=
  d.map fun p => if p.1 == k then (p.1, f p.2) else p

/-- `set.add` on a Python set, modelled as order-preserving dedup insert. -/
def setInsert (l : List String) (x : String) : List String :=
  if x ∈ l then l else l ++ [x]

/-- Material-slot names of an object (`[mat.name for mat in obj.data.materials if mat]`). -/
def slotNames (o : Obj) : List String := o.materials.filterMap id

/-- Fresh dict entry for a missing image (src lines 121–134). -/
def freshImageEntry (img : Image) : Entry :=
  { file_name := img.name
    file_type := if img.library.isSome then "LINKED" else "IMAGE"
    is_linked := img.library.isSome
    library_path := img.library.getD "" }

/-- The object attribution loop of the image phase (src lines 139–142). -/
def imageStepObjs (fp matName : String) (objs : List Obj) (d : Dict) : Dict :=
  objs.foldl
    (fun d obj =>
      if obj.otype = "MESH" ∧ obj.materials ≠ [] ∧ matName ∈ slotNames obj then
        dictModify d fp fun e => { e with objects := setInsert e.objects obj.name }
      else d)
    d

/-- Processing of one node in the missing-image phase (src lines 110–142). -/
def scanImageNode (objs : List Obj) (fs : List String) (matName : String)
    (d : Dict) (node : Node) : Dict :=
  if node.isTexImage then
    match node.image with
    | none => d
    | some image =>
      if image.packed then d
      else if image.filepath ≠ "" ∧ check_udim_exists image.filepath fs = false then
        let fp := image.filepath
        let d1 := dictAdd d fp (freshImageEntry image)
        let d2 := dictModify d1 fp fun e =>
          { e with materials := setInsert e.materials matName }
        let d3 := dictModify d2 fp fun e =>
          { e with node_names := setInsert e.node_names node.name }
        imageStepObjs fp matName objs d3
      else d
  else d

/-- The missing-image phase over all materials (src lines 107–142). -/
def scanImagePhase (mats : List Material) (objs : List Obj) (fs : List String)
    (d0 : Dict) : Dict :=
  mats.foldl
    (fun d material =>
      if material.use_nodes then
        match material.node_tree with
        | none => d
        | some nodes => nodes.foldl (scanImageNode objs fs material.name) d
      else d)
    d0

/-- Processing of one node in the movie-texture phase (src lines 147–165). -/
def scanMovieNode (fs : List String) (d : Dict) (node : Node) : Dict :=
  if node.isTexImage then
    match node.image with
    | none => d
    | some image =>
      if image.source_movie then
        if image.packed then d
        else if image.filepath ≠ "" ∧ check_udim_exists image.filepath fs = false then
          dictAdd d image.filepath { file_name := image.name, file_type := "MOVIE" }
        else d
      else d
  else d

/-- The movie-texture phase over all materials (src lines 145–165). -/
def scanMoviePhase (mats : List Material) (fs : List String) (d0 : Dict) : Dict :=
  mats.foldl
    (fun d material =>
      if material.use_nodes then
        match material.node_tree with
        | none => d
        | some nodes => nodes.foldl (scanMovieNode fs) d
      else d)
    d0

/-- The movie-clip phase (src lines 168–178). -/
def scanClipPhase (clips : List MovieClip) (fs : List String) (d0 : Dict) : Dict :=
  clips.foldl
    (fun d clip =>
      if clip.filepath ≠ "" ∧ fs.contains clip.filepath = false then
        dictAdd d clip.filepath { file_name := clip.name, file_type := "MOVIE CLIP" }
      else d)
    d0

/-- The sound phase (src lines 181–191). -/
def scanSoundPhase (sounds : List Sound) (fs : List String) (d0 : Dict) : Dict :=
  sounds.foldl
    (fun d sound =>
      if sound.filepath ≠ "" ∧ fs.contains sound.filepath = false then
        dictAdd d sound.filepath { file_name := sound.name, file_type := "SOUND" }
      else d)
    d0

/-- Display-name fallback chain for a cache file (src lines 200–207). -/
def cacheFileName (fp modName : String) : String :=
  let fn := basename fp
  if fn ≠ "" then fn
  else
    let fn2 := basename (rstripSlashes fp)
    if fn2 ≠ "" then fn2 else modName ++ "_cache"

/-- The cache-modifier phase (src lines 194–217). -/
def scanCachePhase (objs : List Obj) (fs : List String) (d0 : Dict) : Dict :=
  objs.foldl
    (fun d obj =>
      obj.modifiers.foldl
        (fun d m =>
          if m.isMeshCache then
            if m.filepath ≠ "" ∧ fs.contains m.filepath = false then
              dictAdd d m.filepath
                { file_name := cacheFileName m.filepath m.name
                  file_type := "CACHE"
                  objects := [obj.name]
                  modifier_name := m.name }
            else d
          else d)
        d)
    d0

/-- The full scan: all five phases in source order. -/
def scanDict (data : BlendData) (fs : List String) : Dict :=
  scanCachePhase data.objects fs
    (scanSoundPhase data.sounds fs
      (scanClipPhase data.movieclips fs
        (scanMoviePhase data.materials fs
          (scanImagePhase data.materials data.objects fs []))))

/-- One `MissingFileItem` of the scene's `missing_files` collection.
The defaults mirror the property-group defaults of `MissingFileItem`. -/
structure Record where
  filepath : String
  file_name : String := ""
  file_type : String := ""
  material_names : String := ""
  object_names : String := ""
  node_names : String := ""
  is_used : Bool := true
  is_linked : Bool := false
  library_path : String := ""
  new_filepath : String := ""
deriving DecidableEq

/-- `", ".join(sorted(s))` with a placeholder for the empty set. -/
def joinNames (l : List String) (empty : String) : String :=
  if l.isEmpty then empty
  else String.intercalate ", " (l.insertionSort (· ≤ ·))

/-- Building one collection item from a dict entry (src lines 221–231). -/
def buildItem (fp : String) (e : Entry) : Record :=
  { filepath := fp
    file_name := e.file_name
    file_type := e.file_type
    material_names := joinNames e.materials "(none)"
    object_names := joinNames e.objects "(unused)"
    node_names := joinNames e.node_names "(none)"
    is_used := decide (0 < e.objects.length)
    is_linked := e.is_linked
    library_path := e.library_path }

/-- The records a scan produces, in dict insertion order. -/
def scanRecords (data : BlendData) (fs : List String) : List Record :=
  (scanDict data fs).map fun p => buildItem p.1 p.2

/-- `FILE_OT_scan_missing.execute`: the collection is cleared
(`missing_files.clear()`, src line 102) and rebuilt from the scan, so the
previous collection `prev` never contributes. -/
def scanExecute (_prev : List Record) (data : BlendData) (fs : List String) :
    List Record :=
  scanRecords data fs

/-! ### Scanner invariants -/

theorem foldl_inv {α β : Type} {P : β → Prop} {f : β → α → β}
    (h : ∀ b a, P b → P (f b a)) :
    ∀ (l : List α) (b : β), P b → P (l.foldl f b) := by
  intro l
  induction l with
  | nil => intro b hb; exact hb
  | cons a t ih => intro b hb; exact ih _ (h _ _ hb)

theorem foldl_fix {α β : Type} {f : β → α → β} {l : List α}
    (h : ∀ a ∈ l, ∀ b, f b a = b) : ∀ b, l.foldl f b = b := by
  induction l with
  | nil => intro b; rfl
  | cons a t ih =>
    intro b
    rw [List.foldl_cons, h a (by simp), ih fun a ha b => h a (by simp [ha]) b]

/-- The two key invariants of the scanner dict: keys are pairwise
distinct, and no key is the empty path. -/
def DictInv (d : Dict) : Prop :=
  (d.map Prod.fst).Nodup ∧ ∀ p ∈ d, p.1 ≠ ""

theorem dictContains_iff (d : Dict) (k : String) :
    dictContains d k = true ↔ k ∈ d.map Prod.fst := by
  simp [dictContains, List.any_eq_true, List.mem_map]

theorem keys_dictModify (d : Dict) (k : String) (f : Entry → Entry) :
    (dictModify d k f).map Prod.fst = d.map Prod.fst := by
  rw [dictModify, List.map_map]
  apply List.map_congr_left
  intro p _
  show (if p.1 == k then (p.1, f p.2) else p).1 = p.1
  split <;> rfl

theorem dictInv_dictModify {d : Dict} (k : String) (f : Entry → Entry)
    (h : DictInv d) : DictInv (dictModify d k f) := by
  refine ⟨by rw [keys_dictModify]; exact h.1, ?_⟩
  intro p hp
  rw [dictModify, List.mem_map] at hp
  obtain ⟨q, hq, he⟩ := hp
  have hk := h.2 q hq
  by_cases hqk : (q.1 == k) = true
  · rw [if_pos hqk] at he
    rw [← he]
    exact hk
  · rw [if_neg hqk] at he
    rw [← he]
    exact hk

theorem dictInv_dictAdd {d : Dict} {k : String} (v : Entry) (hk : k ≠ "")
    (h : DictInv d) : DictInv (dictAdd d k v) := by
  rw [dictAdd]
  by_cases hc : dictContains d k
  · simpa [hc] using h
  · rw [if_neg hc]
    constructor
    · rw [List.map_append]
      rw [List.nodup_append]
      refine ⟨h.1, by simp, ?_⟩
      intro a ha
      simp only [List.map_cons, List.map_nil, List.mem_singleton]
      intro he
      rw [he] at ha
      exact hc ((dictContains_iff d k).mpr ha)
    · intro p hp
      rw [List.mem_append] at hp
      cases hp with
      | inl hp => exact h.2 p hp
      | inr hp =>
        rw [List.mem_singleton] at hp
        rw [hp]
        exact hk

theorem dictInv_imageStepObjs (fp matName : String) (objs : List Obj)
    {d : Dict} (h : DictInv d) : DictInv (imageStepObjs fp matName objs d) := by
  refine foldl_inv ?_ objs d h
  intro d obj hd
  dsimp only
  split
  · exact dictInv_dictModify _ _ hd
  · exact hd

theorem dictInv_scanImageNode (objs : List Obj) (fs : List String)
    (matName : String) {d : Dict} (node : Node) (h : DictInv d) :
    DictInv (scanImageNode objs fs matName d node) := by
  rw [scanImageNode]
  split
  · split
    · exact h
    · split
      · exact h
      · split
        · rename_i himg hcond
          exact dictInv_imageStepObjs _ _ _
            (dictInv_dictModify _ _ (dictInv_dictModify _ _
              (dictInv_dictAdd _ hcond.1 h)))
        · exact h
  · exact h

theorem dictInv_scanImagePhase (mats : List Material) (objs : List Obj)
    (fs : List String) {d0 : Dict} (h : DictInv d0) :
    DictInv (scanImagePhase mats objs fs d0) := by
  refine foldl_inv ?_ mats d0 h
  intro d material hd
  dsimp only
  split
  · split
    · exact hd
    · exact foldl_inv (fun d node hd => dictInv_scanImageNode _ _ _ node hd) _ _ hd
  · exact hd

theorem dictInv_scanMovieNode (fs : List String) {d : Dict} (node : Node)
    (h : DictInv d) : DictInv (scanMovieNode fs d node) := by
  rw [scanMovieNode]
  split
  · split
    · exact h
    · split
      · split
        · exact h
        · split
          · rename_i hcond
            exact dictInv_dictAdd _ hcond.1 h
          · exact h
      · exact h
  · exact h

theorem dictInv_scanMoviePhase (mats : List Material) (fs : List String)
    {d0 : Dict} (h : DictInv d0) : DictInv (scanMoviePhase mats fs d0) := by
  refine foldl_inv ?_ mats d0 h
  intro d material hd
  dsimp only
  split
  · split
    · exact hd
    · exact foldl_inv (fun d node hd => dictInv_scanMovieNode _ node hd) _ _ hd
  · exact hd

theorem dictInv_scanClipPhase (clips : List MovieClip) (fs : List String)
    {d0 : Dict} (h : DictInv d0) : DictInv (scanClipPhase clips fs d0) := by
  refine foldl_inv ?_ clips d0 h
  intro d clip hd
  dsimp only
  split
  · rename_i hcond
    exact dictInv_dictAdd _ hcond.1 hd
  · exact hd

theorem dictInv_scanSoundPhase (sounds : List Sound) (fs : List String)
    {d0 : Dict} (h : DictInv d0) : DictInv (scanSoundPhase sounds fs d0) := by
  refine foldl_inv ?_ sounds d0 h
  intro d sound hd
  dsimp only
  split
  · rename_i hcond
    exact dictInv_dictAdd _ hcond.1 hd
  · exact hd

theorem dictInv_scanCachePhase (objs : List Obj) (fs : List String)
    {d0 : Dict} (h : DictInv d0) : DictInv (scanCachePhase objs fs d0) := by
  refine foldl_inv ?_ objs d0 h
  intro d obj hd
  dsimp only
  refine foldl_inv ?_ obj.modifiers d hd
  intro d m hd
  dsimp only
  split
  · split
    · rename_i hcond
      exact dictInv_dictAdd _ hcond.1 hd
    · exact hd
  · exact hd

theorem dictInv_scanDict (data : BlendData) (fs : List String) :
    DictInv (scanDict data fs) := by
  rw [scanDict]
  exact dictInv_scanCachePhase _ _
    (dictInv_scanSoundPhase _ _
      (dictInv_scanClipPhase _ _
        (dictInv_scanMoviePhase _ _
          (dictInv_scanImagePhase _ _ _ ⟨List.nodup_nil, by simp⟩))))

/-- Claim C4: every scan yields one record per distinct missing path
(`original_path` is a dedup key) and the collection is rebuilt from
scratch, independently of whatever records existed before the scan. -/
theorem scan_dedup_rebuild (prev : List Record) (data : BlendData)
    (fs : List String) :
    ((scanExecute prev data fs).map (fun r => r.filepath)).Nodup ∧
      scanExecute prev data fs = scanExecute [] data fs := by
  constructor
  · have hkeys : (scanExecute prev data fs).map (fun r => r.filepath) =
        (scanDict data fs).map Prod.fst := by
      rw [scanExecute, scanRecords, List.map_map]
      rfl
    rw [hkeys]
    exact (dictInv_scanDict data fs).1
  · rfl

/-- Claim C7: a record's `is_used` flag is true iff its set of
referencing objects is non-empty (src line 229). -/
theorem scan_is_used_iff (data : BlendData) (fs : List String) :
    ∀ p ∈ scanDict data fs,
      ((buildItem p.1 p.2).is_used = true ↔ p.2.objects ≠ []) := by
  intro p _
  simp [buildItem, List.length_pos]

/-- Witness for C7: a concrete scan over one missing sound produces an
entry whose built record has `is_used = false` and no referencing objects. -/
theorem scan_is_used_iff_witness :
    ("/m.wav", ({ file_name := "snd", file_type := "SOUND" } : Entry)) ∈
        scanDict { sounds := [{ name := "snd", filepath := "/m.wav" }] } [] ∧
      ((buildItem "/m.wav" { file_name := "snd", file_type := "SOUND" }).is_used
          = true ↔
        ({ file_name := "snd", file_type := "SOUND" } : Entry).objects ≠ []) :=
  ⟨by decide,
    scan_is_used_iff { sounds := [{ name := "snd", filepath := "/m.wav" }] } []
      ("/m.wav", { file_name := "snd", file_type := "SOUND" }) (by decide)⟩

/-- Claim C10: no record produced by a scan has an empty stored path; an
empty filepath is filtered out for every reference kind. -/
theorem scan_no_empty_path (prev : List Record) (data : BlendData)
    (fs : List String) :
    ∀ r ∈ scanExecute prev data fs, r.filepath ≠ "" := by
  intro r hr
  rw [scanExecute, scanRecords, List.mem_map] at hr
  obtain ⟨p, hp, he⟩ := hr
  have := (dictInv_scanDict data fs).2 p hp
  rw [← he]
  exact this

/-- Witness for C10: a concrete scan over one missing movie clip. -/
theorem scan_no_empty_path_witness :
    (buildItem "/m.mov" { file_name := "clip", file_type := "MOVIE CLIP" }) ∈
        scanExecute [] { movieclips := [{ name := "clip", filepath := "/m.mov" }] } [] ∧
      (buildItem "/m.mov"
        { file_name := "clip", file_type := "MOVIE CLIP" }).filepath ≠ "" :=
  ⟨by decide,
    scan_no_empty_path [] { movieclips := [{ name := "clip", filepath := "/m.mov" }] } []
      _ (by decide)⟩

/-! ### Claim C8: packed (embedded) references -/

theorem scanImageNode_packed (objs : List Obj) (fs : List String)
    (matName : String) (d : Dict) (node : Node)
    (hp : ∀ img, node.image = some img → img.packed = true) :
    scanImageNode objs fs matName d node = d := by
  rw [scanImageNode]
  split
  · cases himg : node.image with
    | none => rfl
    | some img =>
      dsimp only
      rw [hp img himg, if_pos rfl]
  · rfl

theorem scanMovieNode_packed (fs : List String) (d : Dict) (node : Node)
    (hp : ∀ img, node.image = some img → img.packed = true) :
    scanMovieNode fs d node = d := by
  rw [scanMovieNode]
  split
  · cases himg : node.image with
    | none => rfl
    | some img =>
      dsimp only
      split
      · rw [hp img himg, if_pos rfl]
      · rfl
  · rfl

/-- Claim C8 (amended): the scanner skips packed image references, in
both the image pass and the movie-texture pass — when every node's image
is packed, the scan result is as if no materials existed at all.  Movie
clips, sounds and cache modifiers are never checked for packing (see the
counterexample: a packed sound with a dead path is still reported). -/
theorem scan_packed_amended (data : BlendData) (fs : List String)
    (hp : ∀ m ∈ data.materials, ∀ ns, m.node_tree = some ns →
      ∀ n ∈ ns, ∀ img, n.image = some img → img.packed = true) :
    scanRecords data fs = scanRecords { data with materials := [] } fs := by
  have himg : scanImagePhase data.materials data.objects fs [] = [] := by
    refine foldl_fix ?_ []
    intro m hm d
    dsimp only
    split
    · cases hnt : m.node_tree with
      | none => rfl
      | some ns =>
        refine foldl_fix ?_ d
        intro n hn d
        exact scanImageNode_packed _ _ _ _ _ (hp m hm ns hnt n hn)
    · rfl
  have hmov : ∀ d, scanMoviePhase data.materials fs d = d := by
    intro d
    refine foldl_fix ?_ d
    intro m hm d
    dsimp only
    split
    · cases hnt : m.node_tree with
      | none => rfl
      | some ns =>
        refine foldl_fix ?_ d
        intro n hn d
        exact scanMovieNode_packed _ _ _ (hp m hm ns hnt n hn)
    · rfl
  rw [scanRecords, scanRecords, scanDict, scanDict, himg, hmov]
  rfl

/-- A packed image with a dead path, for the C8 witness. -/
def c8image : Image := { name := "img", filepath := "/dead.png", packed := true }

/-- A texture node holding `c8image`. -/
def c8node : Node := { name := "tex", isTexImage := true, image := some c8image }

/-- A material whose node tree holds only `c8node`. -/
def c8mat : Material := { name := "mat", node_tree := some [c8node] }

/-- Scene data with only the packed image above. -/
def c8data : BlendData := { materials := [c8mat] }

/-- Witness for C8 (amended): one material whose only texture node holds
a packed image with a dead path — the scan reports nothing. -/
theorem scan_packed_amended_witness :
    (∀ m ∈ c8data.materials, ∀ ns, m.node_tree = some ns →
        ∀ n ∈ ns, ∀ img, n.image = some img → img.packed = true) ∧
      scanRecords c8data [] = scanRecords { c8data with materials := [] } [] := by
  have hp : ∀ m ∈ c8data.materials, ∀ ns, m.node_tree = some ns →
      ∀ n ∈ ns, ∀ img, n.image = some img → img.packed = true := by
    intro m hm ns hnt n hn img himg
    simp only [c8data, c8mat, List.mem_singleton] at hm
    rw [hm] at hnt
    simp only [Option.some.injEq] at hnt
    rw [← hnt] at hn
    simp only [List.mem_singleton] at hn
    rw [hn] at himg
    simp only [c8node, Option.some.injEq] at himg
    rw [← himg]
    rfl
  exact ⟨hp, scan_packed_amended c8data [] hp⟩

/-- A packed sound with a dead path, for the C8 counterexample. -/
def c8sound : Sound :=
  { name := "voice", filepath := "/missing/voice.wav", packed := true }

/-- Scene data with only the packed sound above. -/
def c8soundData : BlendData := { sounds := [c8sound] }

/-- Counterexample to C8 as stated: a packed sound whose stored path does
not exist on disk is still reported as missing — the sound phase never
consults the packed flag. -/
theorem scan_packed_counterexample :
    (∀ s ∈ c8soundData.sounds, s.packed = true) ∧
      (scanRecords c8soundData []).map (fun r => r.filepath) =
        ["/missing/voice.wav"] := by
  constructor
  · intro s hs
    simp only [c8soundData, c8sound, List.mem_singleton] at hs
    rw [hs]
  · rfl

/-! ### The relinker (`FILE_OT_relink_single.execute`, file branch,
src lines 446–582) -/

/-- Result of the direct image loop (src lines 457–472): updated image
list, `updated_count` and `linked_count` contributions, and whether a
failed `image.reload()` aborted the operator (`return {'CANCELLED'}`,
line 472).  The path assignment precedes the reload, so an aborting
image keeps its new path. -/
structure ImgPass where
  images : List Image
  updated : Nat
  linked : Nat
  aborted : Bool
deriving DecidableEq

/-- The direct image loop (src lines 459–472). -/
def relinkImagesDirect (old new : String) : List Image → ImgPass
  | [] => ⟨[], 0, 0, false⟩
  | img :: rest =>
    if img.filepath = old then
      if img.library.isSome then
        let r := relinkImagesDirect old new rest
        ⟨img :: r.images, r.updated, r.linked + 1, r.aborted⟩
      else
        if img.reload_ok then
          let r := relinkImagesDirect old new rest
          ⟨{ img with filepath := new } :: r.images, r.updated + 1, r.linked,
            r.aborted⟩
        else
          ⟨{ img with filepath := new } :: rest, 0, 0, true⟩
    else
      let r := relinkImagesDirect old new rest
      ⟨img :: r.images, r.updated, r.linked, r.aborted⟩

/-- Result of the direct movie-clip loop. -/
structure ClipPass where
  clips : List MovieClip
  updated : Nat
  linked : Nat
deriving DecidableEq

/-- The direct movie-clip loop (src lines 475–484): linked clips are
skipped and counted; update failures are reported but do not abort. -/
def relinkClipsDirect (old new : String) : List MovieClip → ClipPass
  | [] => ⟨[], 0, 0⟩
  | c :: rest =>
    let r := relinkClipsDirect old new rest
    if c.filepath = old then
      if c.library.isSome then ⟨c :: r.clips, r.updated, r.linked + 1⟩
      else ⟨{ c with filepath := new } :: r.clips, r.updated + 1, r.linked⟩
    else ⟨c :: r.clips, r.updated, r.linked⟩

/-- Result of the direct sound loop. -/
structure SndPass where
  sounds : List Sound
  updated : Nat
  linked : Nat
deriving DecidableEq

/-- The direct sound loop (src lines 487–496). -/
def relinkSoundsDirect (old new : String) : List Sound → SndPass
  | [] => ⟨[], 0, 0⟩
  | s :: rest =>
    let r := relinkSoundsDirect old new rest
    if s.filepath = old then
      if s.library.isSome then ⟨s :: r.sounds, r.updated, r.linked + 1⟩
      else ⟨{ s with filepath := new } :: r.sounds, r.updated + 1, r.linked⟩
    else ⟨s :: r.sounds, r.updated, r.linked⟩

/-- The modifier update loop of one object (`hasattr(modifier, 'filepath')`
and path match; no library test anywhere). -/
def relinkModsList (old new : String) : List Modifier → List Modifier × Nat
  | [] => ([], 0)
  | m :: rest =>
    let r := relinkModsList old new rest
    if m.hasFilepath ∧ m.filepath = old then
      ({ m with filepath := new } :: r.1, r.2 + 1)
    else (m :: r.1, r.2)

/-- The cache-modifier update over all objects (src lines 499–506 for the
direct pass, lines 560–567 for the auto pass — both loops are identical). -/
def relinkModsDirect (old new : String) : List Obj → List Obj × Nat
  | [] => ([], 0)
  | o :: rest =>
    let rm := relinkModsList old new o.modifiers
    let r := relinkModsDirect old new rest
    ({ o with modifiers := rm.1 } :: r.1, rm.2 + r.2)

/-- Auto-relink image update (src lines 535–542): matching local images
get the path assigned; the count is added only when the reload succeeds
(a reload failure is swallowed by the bare `except` with the path already
set).  Linked images are skipped by the explicit `library is None` test —
without any skip counting. -/
def autoImages (oldp newp : String) : List Image → List Image × Nat
  | [] => ([], 0)
  | img :: rest =>
    let r := autoImages oldp newp rest
    if img.filepath = oldp ∧ img.library = none then
      if img.reload_ok then ({ img with filepath := newp } :: r.1, r.2 + 1)
      else ({ img with filepath := newp } :: r.1, r.2)
    else (img :: r.1, r.2)

/-- Auto-relink movie-clip update (src lines 544–550): the code has no
`library` test; the host raises on writing a linked clip and the bare
`except` then leaves it unchanged and uncounted. -/
def autoClips (oldp newp : String) : List MovieClip → List MovieClip × Nat
  | [] => ([], 0)
  | c :: rest =>
    let r := autoClips oldp newp rest
    if c.filepath = oldp then
      if c.library.isSome then (c :: r.1, r.2)
      else ({ c with filepath := newp } :: r.1, r.2 + 1)
    else (c :: r.1, r.2)

/-- Auto-relink sound update (src lines 552–558), same shape as the clips. -/
def autoSounds (oldp newp : String) : List Sound → List Sound × Nat
  | [] => ([], 0)
  | s :: rest =>
    let r := autoSounds oldp newp rest
    if s.filepath = oldp then
      if s.library.isSome then (s :: r.1, r.2)
      else ({ s with filepath := newp } :: r.1, r.2 + 1)
    else (s :: r.1, r.2)

/-- One record of the auto-relink loop body (src lines 514–567). -/
def autoStep (old new_dir : String) (fs : List String)
    (relp : String → String) (st : BlendData × Nat) (other : Record) :
    BlendData × Nat :=
  if other.filepath = old then st
  else
    let other_filename := basename other.filepath
    let potential_path := pathJoin new_dir other_filename
    let file_exists :=
      if hasUdim potential_path then check_udim_exists potential_path fs
      else fs.contains potential_path
    if file_exists then
      let relative_path := relp potential_path
      let oldp := other.filepath
      let ri := autoImages oldp relative_path st.1.images
      let rc := autoClips oldp relative_path st.1.movieclips
      let rs := autoSounds oldp relative_path st.1.sounds
      let rm := relinkModsDirect oldp relative_path st.1.objects
      ({ st.1 with
          images := ri.1
          movieclips := rc.1
          sounds := rs.1
          objects := rm.1 },
        st.2 + ri.2 + rc.2 + rs.2 + rm.2)
    else st

/-- The directory-scoped auto-relink pass over all records (src 512–567). -/
def autoPass (records : List Record) (old new_dir : String)
    (fs : List String) (relp : String → String) (st : BlendData) :
    BlendData × Nat :=
  records.foldl (autoStep old new_dir fs relp) (st, 0)

/-- Outcome of `FILE_OT_relink_single.execute` for a file candidate:
final `bpy.data` state, whether `CANCELLED` was returned, the
`updated_count`, `auto_relinked` and `linked_count` tallies, and whether
the trailing full rescan (`bpy.ops.file.scan_missing()`) ran. -/
structure RelinkOut where
  state : BlendData
  cancelled : Bool
  updated : Nat
  autoRelinked : Nat
  linkedCount : Nat
  rescan : Bool
deriving DecidableEq

/-- `bpy.data` after the four direct update loops (src lines 454–506). -/
def relinkDirectState (item : Record) (st : BlendData) : BlendData :=
  { st with
    images := (relinkImagesDirect item.filepath item.new_filepath st.images).images
    movieclips :=
      (relinkClipsDirect item.filepath item.new_filepath st.movieclips).clips
    sounds := (relinkSoundsDirect item.filepath item.new_filepath st.sounds).sounds
    objects := (relinkModsDirect item.filepath item.new_filepath st.objects).1 }

/-- The success continuation of the operator (src lines 454–582 once the
image loop finished without aborting): direct updates, then the
directory-scoped auto-relink pass, then the rescan. -/
def relinkFinish (records : List Record) (item : Record) (fs : List String)
    (relp : String → String) (st : BlendData) : RelinkOut :=
  let st1 := relinkDirectState item st
  let new_dir := dirname item.new_filepath
  let ra :=
    if fs.contains new_dir then autoPass records item.filepath new_dir fs relp st1
    else (st1, 0)
  ⟨ra.1, false,
    (relinkImagesDirect item.filepath item.new_filepath st.images).updated +
      (relinkClipsDirect item.filepath item.new_filepath st.movieclips).updated +
      (relinkSoundsDirect item.filepath item.new_filepath st.sounds).updated +
      (relinkModsDirect item.filepath item.new_filepath st.objects).2,
    ra.2,
    (relinkImagesDirect item.filepath item.new_filepath st.images).linked +
      (relinkClipsDirect item.filepath item.new_filepath st.movieclips).linked +
      (relinkSoundsDirect item.filepath item.new_filepath st.sounds).linked,
    true⟩

/-- `FILE_OT_relink_single.execute` for a file (non-directory) candidate
path (src lines 446–582).  `bpy.path.abspath` is the identity; `relp`
models `bpy.path.relpath` together with its `except` fallback.  The
separate folder branch (src lines 342–444, the bulk search) is not
modelled: no claim refers to it. -/
def relink_single_file (records : List Record) (item : Record)
    (fs : List String) (relp : String → String) (st : BlendData) : RelinkOut :=
  if item.new_filepath = "" then ⟨st, true, 0, 0, 0, false⟩
  else if (if hasUdim item.new_filepath then
      check_udim_exists item.new_filepath fs
    else fs.contains item.new_filepath) = false then ⟨st, true, 0, 0, 0, false⟩
  else if (relinkImagesDirect item.filepath item.new_filepath st.images).aborted
    then
    ⟨{ st with
        images := (relinkImagesDirect item.filepath item.new_filepath
          st.images).images },
      true, 0, 0, 0, false⟩
  else relinkFinish records item fs relp st

/-! ### Relinker characterisation lemmas -/

/-- What the relink passes do to one image: a matching local image gets
the new path, anything else is untouched. -/
def stepImg (old new : String) (img : Image) : Image :=
  if img.filepath = old ∧ img.library = none then { img with filepath := new }
  else img

/-- As `stepImg`, for movie clips. -/
def stepClip (old new : String) (c : MovieClip) : MovieClip :=
  if c.filepath = old ∧ c.library = none then { c with filepath := new } else c

/-- As `stepImg`, for sounds. -/
def stepSnd (old new : String) (s : Sound) : Sound :=
  if s.filepath = old ∧ s.library = none then { s with filepath := new } else s

/-- Matching locally-owned images. -/
def countLocalImgs (old : String) (l : List Image) : Nat :=
  (l.filter fun i => i.filepath == old && i.library == none).length

/-- Matching library-owned images. -/
def countLinkedImgs (old : String) (l : List Image) : Nat :=
  (l.filter fun i => i.filepath == old && i.library.isSome).length

/-- Matching locally-owned movie clips. -/
def countLocalClips (old : String) (l : List MovieClip) : Nat :=
  (l.filter fun c => c.filepath == old && c.library == none).length

/-- Matching library-owned movie clips. -/
def countLinkedClips (old : String) (l : List MovieClip) : Nat :=
  (l.filter fun c => c.filepath == old && c.library.isSome).length

/-- Matching locally-owned sounds. -/
def countLocalSnds (old : String) (l : List Sound) : Nat :=
  (l.filter fun s => s.filepath == old && s.library.isSome = false).length

/-- Matching library-owned sounds. -/
def countLinkedSnds (old : String) (l : List Sound) : Nat :=
  (l.filter fun s => s.filepath == old && s.library.isSome).length

theorem library_eq_none_of_not_isSome {o : Option String}
    (h : o.isSome = false) : o = none := by
  cases o with
  | none => rfl
  | some v => simp at h

theorem relinkImagesDirect_noabort (old new : String) :
    ∀ l : List Image,
      (∀ i ∈ l, i.filepath = old → i.library = none → i.reload_ok = true) →
      relinkImagesDirect old new l =
        ⟨l.map (stepImg old new), countLocalImgs old l, countLinkedImgs old l,
          false⟩ := by
  intro l
  induction l with
  | nil => intro _; rfl
  | cons img rest ih =>
    intro h
    have hrest : ∀ i ∈ rest, i.filepath = old → i.library = none →
        i.reload_ok = true :=
      fun i hi => h i (List.mem_cons_of_mem _ hi)
    rw [relinkImagesDirect]
    by_cases hf : img.filepath = old
    · by_cases hl : img.library.isSome = true
      · rw [if_pos hf, if_pos hl, ih hrest]
        have hs : stepImg old new img = img := by
          rw [stepImg, if_neg]
          rintro ⟨-, hnone⟩
          rw [hnone] at hl
          simp at hl
        simp only [List.map_cons, hs, countLocalImgs, countLinkedImgs,
          List.filter_cons]
        have hc1 : (img.filepath == old && img.library == none) = false := by
          cases ho : img.library with
          | none => rw [ho] at hl; simp at hl
          | some v => simp [ho]
        have hc2 : (img.filepath == old && img.library.isSome) = true := by
          simp [hf, hl]
        rw [hc1, hc2]
        simp
      · have hnone : img.library = none :=
          library_eq_none_of_not_isSome (by simpa using hl)
        have hro : img.reload_ok = true := h img (by simp) hf hnone
        rw [if_pos hf, if_neg (by simp [hl]), if_pos hro, ih hrest]
        have hs : stepImg old new img = { img with filepath := new } := by
          rw [stepImg, if_pos ⟨hf, hnone⟩]
        simp only [List.map_cons, hs, countLocalImgs, countLinkedImgs,
          List.filter_cons]
        have hc1 : (img.filepath == old && img.library == none) = true := by
          simp [hf, hnone]
        have hc2 : (img.filepath == old && img.library.isSome) = false := by
          simp [hnone]
        rw [hc1, hc2]
        simp
    · rw [if_neg hf, ih hrest]
      have hs : stepImg old new img = img := by
        rw [stepImg, if_neg]
        rintro ⟨hf2, -⟩
        exact hf hf2
      simp only [List.map_cons, hs, countLocalImgs, countLinkedImgs,
        List.filter_cons]
      have hc1 : (img.filepath == old && img.library == none) = false := by
        simp [hf]
      have hc2 : (img.filepath == old && img.library.isSome) = false := by
        simp [hf]
      rw [hc1, hc2]
      simp

theorem relinkClipsDirect_eq (old new : String) :
    ∀ l : List MovieClip,
      relinkClipsDirect old new l =
        ⟨l.map (stepClip old new), countLocalClips old l,
          countLinkedClips old l⟩ := by
  intro l
  induction l with
  | nil => rfl
  | cons c rest ih =>
    rw [relinkClipsDirect, ih]
    by_cases hf : c.filepath = old
    · by_cases hl : c.library.isSome = true
      · rw [if_pos hf, if_pos hl]
        have hs : stepClip old new c = c := by
          rw [stepClip, if_neg]
          rintro ⟨-, hnone⟩
          rw [hnone] at hl
          simp at hl
        simp only [List.map_cons, hs, countLocalClips, countLinkedClips,
          List.filter_cons]
        have hc1 : (c.filepath == old && c.library == none) = false := by
          cases ho : c.library with
          | none => rw [ho] at hl; simp at hl
          | some v => simp [ho]
        have hc2 : (c.filepath == old && c.library.isSome) = true := by
          simp [hf, hl]
        rw [hc1, hc2]
        simp
      · have hnone : c.library = none :=
          library_eq_none_of_not_isSome (by simpa using hl)
        rw [if_pos hf, if_neg (by simp [hl])]
        have hs : stepClip old new c = { c with filepath := new } := by
          rw [stepClip, if_pos ⟨hf, hnone⟩]
        simp only [List.map_cons, hs, countLocalClips, countLinkedClips,
          List.filter_cons]
        have hc1 : (c.filepath == old && c.library == none) = true := by
          simp [hf, hnone]
        have hc2 : (c.filepath == old && c.library.isSome) = false := by
          simp [hnone]
        rw [hc1, hc2]
        simp
    · rw [if_neg hf]
      have hs : stepClip old new c = c := by
        rw [stepClip, if_neg]
        rintro ⟨hf2, -⟩
        exact hf hf2
      simp only [List.map_cons, hs, countLocalClips, countLinkedClips,
        List.filter_cons]
      have hc1 : (c.filepath == old && c.library == none) = false := by
        simp [hf]
      have hc2 : (c.filepath == old && c.library.isSome) = false := by
        simp [hf]
      rw [hc1, hc2]
      simp

theorem relinkSoundsDirect_eq (old new : String) :
    ∀ l : List Sound,
      relinkSoundsDirect old new l =
        ⟨l.map (stepSnd old new), countLocalSnds old l,
          countLinkedSnds old l⟩ := by
  intro l
  induction l with
  | nil => rfl
  | cons s rest ih =>
    rw [relinkSoundsDirect, ih]
    by_cases hf : s.filepath = old
    · by_cases hl : s.library.isSome = true
      · rw [if_pos hf, if_pos hl]
        have hs : stepSnd old new s = s := by
          rw [stepSnd, if_neg]
          rintro ⟨-, hnone⟩
          rw [hnone] at hl
          simp at hl
        simp only [List.map_cons, hs, countLocalSnds, countLinkedSnds,
          List.filter_cons]
        have hc1 : (s.filepath == old && s.library.isSome = false) = false := by
          simp [hl]
        have hc2 : (s.filepath == old && s.library.isSome) = true := by
          simp [hf, hl]
        rw [hc1, hc2]
        simp
      · have hnone : s.library = none :=
          library_eq_none_of_not_isSome (by simpa using hl)
        rw [if_pos hf, if_neg (by simp [hl])]
        have hs : stepSnd old new s = { s with filepath := new } := by
          rw [stepSnd, if_pos ⟨hf, hnone⟩]
        simp only [List.map_cons, hs, countLocalSnds, countLinkedSnds,
          List.filter_cons]
        have hc1 : (s.filepath == old && s.library.isSome = false) = true := by
          simp [hf, hnone]
        have hc2 : (s.filepath == old && s.library.isSome) = false := by
          simp [hnone]
        rw [hc1, hc2]
        simp
    · rw [if_neg hf]
      have hs : stepSnd old new s = s := by
        rw [stepSnd, if_neg]
        rintro ⟨hf2, -⟩
        exact hf hf2
      simp only [List.map_cons, hs, countLocalSnds, countLinkedSnds,
        List.filter_cons]
      have hc1 : (s.filepath == old && s.library.isSome = false) = false := by
        simp [hf]
      have hc2 : (s.filepath == old && s.library.isSome) = false := by
        simp [hf]
      rw [hc1, hc2]
      simp

theorem autoImages_fst (oldp newp : String) :
    ∀ l : List Image, (autoImages oldp newp l).1 = l.map (stepImg oldp newp) := by
  intro l
  induction l with
  | nil => rfl
  | cons img rest ih =>
    rw [autoImages]
    by_cases hc : img.filepath = oldp ∧ img.library = none
    · by_cases hro : img.reload_ok = true
      · simp only [if_pos hc, if_pos hro, List.map_cons, stepImg, if_pos hc]
        exact congrArg _ ih
      · simp only [if_pos hc, if_neg hro, List.map_cons, stepImg, if_pos hc]
        exact congrArg _ ih
    · simp only [if_neg hc, List.map_cons, stepImg, if_neg hc]
      exact congrArg _ ih

theorem autoClips_fst (oldp newp : String) :
    ∀ l : List MovieClip,
      (autoClips oldp newp l).1 = l.map (stepClip oldp newp) := by
  intro l
  induction l with
  | nil => rfl
  | cons c rest ih =>
    rw [autoClips]
    by_cases hf : c.filepath = oldp
    · by_cases hl : c.library.isSome = true
      · have hs : stepClip oldp newp c = c := by
          rw [stepClip, if_neg]
          rintro ⟨-, hnone⟩
          rw [hnone] at hl
          simp at hl
        simp only [if_pos hf, if_pos hl, List.map_cons, hs]
        exact congrArg _ ih
      · have hnone : c.library = none :=
          library_eq_none_of_not_isSome (by simpa using hl)
        have hs : stepClip oldp newp c = { c with filepath := newp } := by
          rw [stepClip, if_pos ⟨hf, hnone⟩]
        simp only [if_pos hf, if_neg (show ¬c.library.isSome = true from hl),
          List.map_cons, hs]
        exact congrArg _ ih
    · have hs : stepClip oldp newp c = c := by
        rw [stepClip, if_neg]
        rintro ⟨hf2, -⟩
        exact hf hf2
      simp only [if_neg hf, List.map_cons, hs]
      exact congrArg _ ih

theorem autoSounds_fst (oldp newp : String) :
    ∀ l : List Sound,
      (autoSounds oldp newp l).1 = l.map (stepSnd oldp newp) := by
  intro l
  induction l with
  | nil => rfl
  | cons s rest ih =>
    rw [autoSounds]
    by_cases hf : s.filepath = oldp
    · by_cases hl : s.library.isSome = true
      · have hs : stepSnd oldp newp s = s := by
          rw [stepSnd, if_neg]
          rintro ⟨-, hnone⟩
          rw [hnone] at hl
          simp at hl
        simp only [if_pos hf, if_pos hl, List.map_cons, hs]
        exact congrArg _ ih
      · have hnone : s.library = none :=
          library_eq_none_of_not_isSome (by simpa using hl)
        have hs : stepSnd oldp newp s = { s with filepath := newp } := by
          rw [stepSnd, if_pos ⟨hf, hnone⟩]
        simp only [if_pos hf, if_neg (show ¬s.library.isSome = true from hl),
          List.map_cons, hs]
        exact congrArg _ ih
    · have hs : stepSnd oldp newp s = s := by
        rw [stepSnd, if_neg]
        rintro ⟨hf2, -⟩
        exact hf hf2
      simp only [if_neg hf, List.map_cons, hs]
      exact congrArg _ ih

theorem filter_map_of_id {α : Type} (p : α → Bool) (f : α → α)
    (hid : ∀ x, p x = true → f x = x) (hp : ∀ x, p (f x) = p x) :
    ∀ l : List α, (l.map f).filter p = l.filter p := by
  intro l
  induction l with
  | nil => rfl
  | cons x t ih =>
    rw [List.map_cons, List.filter_cons, List.filter_cons, hp x]
    cases hx : p x with
    | true => rw [hid x hx, ih]
    | false => exact ih

theorem stepImg_id_on_linked (old new : String) :
    ∀ x : Image, x.library.isSome = true → stepImg old new x = x := by
  intro x hx
  rw [stepImg, if_neg]
  rintro ⟨-, hnone⟩
  rw [hnone] at hx
  simp at hx

theorem stepImg_library (old new : String) (x : Image) :
    (stepImg old new x).library = x.library := by
  rw [stepImg]
  split <;> rfl

theorem stepClip_id_on_linked (old new : String) :
    ∀ x : MovieClip, x.library.isSome = true → stepClip old new x = x := by
  intro x hx
  rw [stepClip, if_neg]
  rintro ⟨-, hnone⟩
  rw [hnone] at hx
  simp at hx

theorem stepClip_library (old new : String) (x : MovieClip) :
    (stepClip old new x).library = x.library := by
  rw [stepClip]
  split <;> rfl

theorem stepSnd_id_on_linked (old new : String) :
    ∀ x : Sound, x.library.isSome = true → stepSnd old new x = x := by
  intro x hx
  rw [stepSnd, if_neg]
  rintro ⟨-, hnone⟩
  rw [hnone] at hx
  simp at hx

theorem stepSnd_library (old new : String) (x : Sound) :
    (stepSnd old new x).library = x.library := by
  rw [stepSnd]
  split <;> rfl

/-- One auto-relink step leaves the library-owned images, clips and
sounds untouched. -/
theorem autoStep_linked_filter (old new_dir : String) (fs : List String)
    (relp : String → String) (q : BlendData × Nat) (other : Record) :
    ((autoStep old new_dir fs relp q other).1.images.filter
        (fun i => i.library.isSome) =
      q.1.images.filter (fun i => i.library.isSome)) ∧
    ((autoStep old new_dir fs relp q other).1.movieclips.filter
        (fun c => c.library.isSome) =
      q.1.movieclips.filter (fun c => c.library.isSome)) ∧
    ((autoStep old new_dir fs relp q other).1.sounds.filter
        (fun s => s.library.isSome) =
      q.1.sounds.filter (fun s => s.library.isSome)) := by
  rw [autoStep]
  split
  · exact ⟨rfl, rfl, rfl⟩
  · dsimp only
    by_cases hfe : (if hasUdim (pathJoin new_dir (basename other.filepath)) = true
        then check_udim_exists (pathJoin new_dir (basename other.filepath)) fs
        else fs.contains (pathJoin new_dir (basename other.filepath))) = true
    · rw [if_pos hfe]
      refine ⟨?_, ?_, ?_⟩
      · show ((autoImages other.filepath _ q.1.images).1.filter
          (fun i => i.library.isSome)) = _
        rw [autoImages_fst,
          filter_map_of_id _ _ (stepImg_id_on_linked _ _)
            (fun x => by rw [stepImg_library])]
      · show ((autoClips other.filepath _ q.1.movieclips).1.filter
          (fun c => c.library.isSome)) = _
        rw [autoClips_fst,
          filter_map_of_id _ _ (stepClip_id_on_linked _ _)
            (fun x => by rw [stepClip_library])]
      · show ((autoSounds other.filepath _ q.1.sounds).1.filter
          (fun s => s.library.isSome)) = _
        rw [autoSounds_fst,
          filter_map_of_id _ _ (stepSnd_id_on_linked _ _)
            (fun x => by rw [stepSnd_library])]
    · rw [if_neg hfe]
      exact ⟨rfl, rfl, rfl⟩

theorem relinkFinish_linkedCount (records : List Record) (item : Record)
    (fs : List String) (relp : String → String) (st : BlendData) :
    (relinkFinish records item fs relp st).linkedCount =
      (relinkImagesDirect item.filepath item.new_filepath st.images).linked +
        (relinkClipsDirect item.filepath item.new_filepath st.movieclips).linked +
        (relinkSoundsDirect item.filepath item.new_filepath st.sounds).linked := rfl

theorem relinkFinish_state (records : List Record) (item : Record)
    (fs : List String) (relp : String → String) (st : BlendData) :
    (relinkFinish records item fs relp st).state =
      (if fs.contains (dirname item.new_filepath) then
        autoPass records item.filepath (dirname item.new_filepath) fs relp
          (relinkDirectState item st)
      else (relinkDirectState item st, 0)).1 := rfl

theorem relinkFinish_flags (records : List Record) (item : Record)
    (fs : List String) (relp : String → String) (st : BlendData) :
    (relinkFinish records item fs relp st).cancelled = false ∧
      (relinkFinish records item fs relp st).rescan = true := ⟨rfl, rfl⟩

/-- Library-owned images, clips and sounds survive the whole auto-relink
pass untouched. -/
theorem autoPass_linked_filter (records : List Record) (old new_dir : String)
    (fs : List String) (relp : String → String) (st : BlendData) :
    ((autoPass records old new_dir fs relp st).1.images.filter
        (fun i => i.library.isSome) = st.images.filter (fun i => i.library.isSome)) ∧
      ((autoPass records old new_dir fs relp st).1.movieclips.filter
        (fun c => c.library.isSome) =
          st.movieclips.filter (fun c => c.library.isSome)) ∧
      ((autoPass records old new_dir fs relp st).1.sounds.filter
        (fun s => s.library.isSome) =
          st.sounds.filter (fun s => s.library.isSome)) := by
  rw [autoPass]
  refine foldl_inv (P := fun q : BlendData × Nat =>
    (q.1.images.filter (fun i => i.library.isSome) =
      st.images.filter (fun i => i.library.isSome)) ∧
    (q.1.movieclips.filter (fun c => c.library.isSome) =
      st.movieclips.filter (fun c => c.library.isSome)) ∧
    (q.1.sounds.filter (fun s => s.library.isSome) =
      st.sounds.filter (fun s => s.library.isSome)))
    ?_ records (st, 0) ⟨rfl, rfl, rfl⟩
  intro q other hq
  have hs := autoStep_linked_filter old new_dir fs relp q other
  exact ⟨hs.1.trans hq.1, (hs.2.1).trans hq.2.1, (hs.2.2).trans hq.2.2⟩

/-- What the modifier loops do to one modifier: carrying a `filepath`
attribute that matches gets the new path (there is no library test). -/
def stepMod (old new : String) (m : Modifier) : Modifier :=
  if m.hasFilepath ∧ m.filepath = old then { m with filepath := new } else m

theorem relinkModsList_fst (old new : String) :
    ∀ l : List Modifier, (relinkModsList old new l).1 = l.map (stepMod old new) := by
  intro l
  induction l with
  | nil => rfl
  | cons m rest ih =>
    rw [relinkModsList]
    by_cases hc : m.hasFilepath ∧ m.filepath = old
    · simp only [if_pos hc, List.map_cons, stepMod, if_pos hc]
      exact congrArg _ ih
    · simp only [if_neg hc, List.map_cons, stepMod, if_neg hc]
      exact congrArg _ ih

theorem relinkModsDirect_fst (old new : String) :
    ∀ objs : List Obj, (relinkModsDirect old new objs).1 =
      objs.map (fun o => { o with modifiers := o.modifiers.map (stepMod old new) }) := by
  intro objs
  induction objs with
  | nil => rfl
  | cons o rest ih =>
    rw [relinkModsDirect]
    simp only [List.map_cons]
    rw [← relinkModsList_fst old new o.modifiers]
    exact congrArg _ ih

theorem relink_single_file_success (records : List Record) (item : Record)
    (fs : List String) (relp : String → String) (st : BlendData)
    (hnp : item.new_filepath ≠ "")
    (hfe : (if hasUdim item.new_filepath then
        check_udim_exists item.new_filepath fs
      else fs.contains item.new_filepath) = true)
    (hab : (relinkImagesDirect item.filepath item.new_filepath st.images).aborted
      = false) :
    relink_single_file records item fs relp st =
      relinkFinish records item fs relp st := by
  rw [relink_single_file, if_neg hnp, if_neg (by rw [hfe]; simp),
    if_neg (by rw [hab]; simp)]

/-- Claim C1 (amended): in a single-file relink, library-owned images,
movie clips and sounds are never modified — the direct pass and the
auto-relink pass both leave them untouched — and the reported skipped
count tallies exactly the library-owned references whose stored path
equals the record's original path in the *direct* pass; the auto-relink
pass counts no skips (see the counterexample).  The direct pass applies
the new path to every matching local image, movie clip and sound, and to
every matching cache modifier (conjuncts 1–4). -/
theorem relink_skips_linked_amended (records : List Record) (item : Record)
    (fs : List String) (relp : String → String) (st : BlendData)
    (hre : ∀ i ∈ st.images, i.filepath = item.filepath → i.library = none →
      i.reload_ok = true)
    (hnp : item.new_filepath ≠ "")
    (hfe : (if hasUdim item.new_filepath then
        check_udim_exists item.new_filepath fs
      else fs.contains item.new_filepath) = true) :
    (relinkImagesDirect item.filepath item.new_filepath st.images).images =
        st.images.map (stepImg item.filepath item.new_filepath) ∧
      (relinkClipsDirect item.filepath item.new_filepath st.movieclips).clips =
        st.movieclips.map (stepClip item.filepath item.new_filepath) ∧
      (relinkSoundsDirect item.filepath item.new_filepath st.sounds).sounds =
        st.sounds.map (stepSnd item.filepath item.new_filepath) ∧
      (relinkModsDirect item.filepath item.new_filepath st.objects).1 =
        st.objects.map (fun o => { o with
          modifiers := o.modifiers.map
            (stepMod item.filepath item.new_filepath) }) ∧
      (relink_single_file records item fs relp st).linkedCount =
        countLinkedImgs item.filepath st.images +
          countLinkedClips item.filepath st.movieclips +
          countLinkedSnds item.filepath st.sounds ∧
      (relink_single_file records item fs relp st).state.images.filter
          (fun i => i.library.isSome) =
        st.images.filter (fun i => i.library.isSome) ∧
      (relink_single_file records item fs relp st).state.movieclips.filter
          (fun c => c.library.isSome) =
        st.movieclips.filter (fun c => c.library.isSome) ∧
      (relink_single_file records item fs relp st).state.sounds.filter
          (fun s => s.library.isSome) =
        st.sounds.filter (fun s => s.library.isSome) := by
  have hri := relinkImagesDirect_noabort item.filepath item.new_filepath
    st.images hre
  have hab : (relinkImagesDirect item.filepath item.new_filepath
      st.images).aborted = false := by rw [hri]
  have hun := relink_single_file_success records item fs relp st hnp hfe hab
  have himg : (relinkImagesDirect item.filepath item.new_filepath
      st.images).images = st.images.map (stepImg item.filepath item.new_filepath) := by
    rw [hri]
  have hclip : (relinkClipsDirect item.filepath item.new_filepath
      st.movieclips).clips =
      st.movieclips.map (stepClip item.filepath item.new_filepath) := by
    rw [relinkClipsDirect_eq]
  have hsnd : (relinkSoundsDirect item.filepath item.new_filepath
      st.sounds).sounds =
      st.sounds.map (stepSnd item.filepath item.new_filepath) := by
    rw [relinkSoundsDirect_eq]
  have hfi : (st.images.map (stepImg item.filepath item.new_filepath)).filter
      (fun i => i.library.isSome) = st.images.filter (fun i => i.library.isSome) :=
    filter_map_of_id _ _ (stepImg_id_on_linked _ _)
      (fun x => by rw [stepImg_library]) st.images
  have hfc : (st.movieclips.map (stepClip item.filepath item.new_filepath)).filter
      (fun c => c.library.isSome) =
      st.movieclips.filter (fun c => c.library.isSome) :=
    filter_map_of_id _ _ (stepClip_id_on_linked _ _)
      (fun x => by rw [stepClip_library]) st.movieclips
  have hfs : (st.sounds.map (stepSnd item.filepath item.new_filepath)).filter
      (fun s => s.library.isSome) = st.sounds.filter (fun s => s.library.isSome) :=
    filter_map_of_id _ _ (stepSnd_id_on_linked _ _)
      (fun x => by rw [stepSnd_library]) st.sounds
  have hst1i : (relinkDirectState item st).images.filter
      (fun i => i.library.isSome) = st.images.filter (fun i => i.library.isSome) := by
    show (relinkImagesDirect item.filepath item.new_filepath st.images).images.filter
      (fun i => i.library.isSome) = _
    rw [himg]
    exact hfi
  have hst1c : (relinkDirectState item st).movieclips.filter
      (fun c => c.library.isSome) =
      st.movieclips.filter (fun c => c.library.isSome) := by
    show (relinkClipsDirect item.filepath item.new_filepath
      st.movieclips).clips.filter (fun c => c.library.isSome) = _
    rw [hclip]
    exact hfc
  have hst1s : (relinkDirectState item st).sounds.filter
      (fun s => s.library.isSome) = st.sounds.filter (fun s => s.library.isSome) := by
    show (relinkSoundsDirect item.filepath item.new_filepath
      st.sounds).sounds.filter (fun s => s.library.isSome) = _
    rw [hsnd]
    exact hfs
  refine ⟨himg, hclip, hsnd,
    relinkModsDirect_fst item.filepath item.new_filepath st.objects,
    ?_, ?_, ?_, ?_⟩
  · rw [hun, relinkFinish_linkedCount, hri, relinkClipsDirect_eq,
      relinkSoundsDirect_eq]
  all_goals rw [hun, relinkFinish_state]
  all_goals by_cases hdir : fs.contains (dirname item.new_filepath) = true
  · rw [if_pos hdir]
    exact ((autoPass_linked_filter records item.filepath
      (dirname item.new_filepath) fs relp (relinkDirectState item st)).1).trans hst1i
  · rw [if_neg hdir]
    exact hst1i
  · rw [if_pos hdir]
    exact ((autoPass_linked_filter records item.filepath
      (dirname item.new_filepath) fs relp (relinkDirectState item st)).2.1).trans hst1c
  · rw [if_neg hdir]
    exact hst1c
  · rw [if_pos hdir]
    exact ((autoPass_linked_filter records item.filepath
      (dirname item.new_filepath) fs relp (relinkDirectState item st)).2.2).trans hst1s
  · rw [if_neg hdir]
    exact hst1s

/-- A local image and a linked image sharing the record's path, for the
C1 witness. -/
def c1img : Image := { name := "a", filepath := "/old/a.png" }

/-- The linked image of the C1 witness. -/
def c1linked : Image :=
  { name := "lib", filepath := "/old/a.png", library := some "lib.blend" }

/-- The record being relinked in the C1 witness. -/
def c1item : Record := { filepath := "/old/a.png", new_filepath := "/d/a.png" }

/-- A local movie clip sharing the record's path, for the C1 witness. -/
def c1clip : MovieClip := { name := "clip", filepath := "/old/a.png" }

/-- `bpy.data` for the C1 witness. -/
def c1st : BlendData := { images := [c1img, c1linked], movieclips := [c1clip] }

/-- Witness for C1 (amended): a direct relink over one local image, one
linked image and one local movie clip, all with the record's stored path
— the local clip is updated and the skip count is exactly the one linked
image. -/
theorem relink_skips_linked_amended_witness :
    (∀ i ∈ c1st.images, i.filepath = c1item.filepath → i.library = none →
        i.reload_ok = true) ∧
      (relinkClipsDirect c1item.filepath c1item.new_filepath
          c1st.movieclips).clips =
        c1st.movieclips.map (stepClip c1item.filepath c1item.new_filepath) ∧
      (relink_single_file [c1item] c1item ["/d/a.png"] id c1st).linkedCount =
        countLinkedImgs c1item.filepath c1st.images +
          countLinkedClips c1item.filepath c1st.movieclips +
          countLinkedSnds c1item.filepath c1st.sounds :=
  ⟨by decide,
    (relink_skips_linked_amended [c1item] c1item ["/d/a.png"] id c1st
      (by decide) (by decide) (by decide)).2.1,
    (relink_skips_linked_amended [c1item] c1item ["/d/a.png"] id c1st
      (by decide) (by decide) (by decide)).2.2.2.2.1⟩

/-- The local image of the relinked record in the C1 counterexample. -/
def cexImgA : Image := { name := "a", filepath := "/old/a.png" }

/-- A library-owned image holding another record's path, in the C1
counterexample. -/
def cexImgB : Image :=
  { name := "b", filepath := "/old/b.png", library := some "lib.blend" }

/-- The record relinked directly in the C1 counterexample. -/
def cexRecA : Record := { filepath := "/old/a.png", new_filepath := "/d/a.png" }

/-- The other still-missing record, whose only reference is the linked
image `cexImgB`, in the C1 counterexample. -/
def cexRecB : Record :=
  { filepath := "/old/b.png", is_linked := true, library_path := "lib.blend" }

/-- `bpy.data` for the C1 counterexample. -/
def cexSt : BlendData := { images := [cexImgA, cexImgB] }

/-- The filesystem for the C1 counterexample: both files exist in `/d`. -/
def cexFs : List String := ["/d/a.png", "/d/b.png", "/d"]

/-- Counterexample to C1 as stated: the directory-scoped auto-relink
pass processes record B (its file exists next to the new path — third
conjunct), leaves its library-owned reference unmodified, yet the
operator reports zero skipped references: the claim's "counted as
skipped rather than updated" fails for the auto-relink pass. -/
theorem relink_skips_linked_counterexample :
    (relink_single_file [cexRecA, cexRecB] cexRecA cexFs id cexSt).linkedCount
        = 0 ∧
      (relink_single_file [cexRecA, cexRecB] cexRecA cexFs id cexSt).autoRelinked
        = 0 ∧
      cexFs.contains (pathJoin "/d" (basename cexRecB.filepath)) = true ∧
      (relink_single_file [cexRecA, cexRecB] cexRecA cexFs id cexSt).state.images
        = [{ cexImgA with filepath := "/d/a.png" }, cexImgB] := by
  refine ⟨?_, ?_, ?_, ?_⟩ <;> decide

/-! ### Claim C2: reload failure during the direct image pass -/

theorem relinkImagesDirect_abort (old new : String) (bad : Image)
    (post : List Image) (hbf : bad.filepath = old) (hbl : bad.library = none)
    (hbr : bad.reload_ok = false) :
    ∀ pre : List Image,
      (∀ i ∈ pre, i.filepath = old → i.library = none → i.reload_ok = true) →
      relinkImagesDirect old new (pre ++ bad :: post) =
        ⟨pre.map (stepImg old new) ++ { bad with filepath := new } :: post,
          countLocalImgs old pre, countLinkedImgs old pre, true⟩ := by
  intro pre
  induction pre with
  | nil =>
    intro _
    rw [List.nil_append, relinkImagesDirect, if_pos hbf,
      if_neg (by rw [hbl]; simp), if_neg (by rw [hbr]; simp)]
    rfl
  | cons i pre' ih =>
    intro h
    have hi := h i (by simp)
    have hrest : ∀ x ∈ pre', x.filepath = old → x.library = none →
        x.reload_ok = true :=
      fun x hx => h x (by simp [hx])
    rw [List.cons_append, relinkImagesDirect]
    by_cases hf : i.filepath = old
    · by_cases hl : i.library.isSome = true
      · rw [if_pos hf, if_pos hl, ih hrest]
        have hs : stepImg old new i = i := stepImg_id_on_linked old new i hl
        simp only [List.map_cons, List.cons_append, hs, countLocalImgs,
          countLinkedImgs, List.filter_cons]
        have hc1 : (i.filepath == old && i.library == none) = false := by
          cases ho : i.library with
          | none => rw [ho] at hl; simp at hl
          | some v => simp [ho]
        have hc2 : (i.filepath == old && i.library.isSome) = true := by
          simp [hf, hl]
        rw [hc1, hc2]
        simp
      · have hnone : i.library = none :=
          library_eq_none_of_not_isSome (by simpa using hl)
        have hro : i.reload_ok = true := hi hf hnone
        rw [if_pos hf, if_neg (by simp [hl]), if_pos hro, ih hrest]
        have hs : stepImg old new i = { i with filepath := new } := by
          rw [stepImg, if_pos ⟨hf, hnone⟩]
        simp only [List.map_cons, List.cons_append, hs, countLocalImgs,
          countLinkedImgs, List.filter_cons]
        have hc1 : (i.filepath == old && i.library == none) = true := by
          simp [hf, hnone]
        have hc2 : (i.filepath == old && i.library.isSome) = false := by
          simp [hnone]
        rw [hc1, hc2]
        simp
    · rw [if_neg hf, ih hrest]
      have hs : stepImg old new i = i := by
        rw [stepImg, if_neg]
        rintro ⟨hf2, -⟩
        exact hf hf2
      simp only [List.map_cons, List.cons_append, hs, countLocalImgs,
        countLinkedImgs, List.filter_cons]
      have hc1 : (i.filepath == old && i.library == none) = false := by
        simp [hf]
      have hc2 : (i.filepath == old && i.library.isSome) = false := by
        simp [hf]
      rw [hc1, hc2]
      simp

/-- Claim C2 (amended): when the reload of one updated image fails, the
path update already applied to that image is kept (no rollback), but the
operator returns `CANCELLED` right there: images after it in iteration
order, all movie clips, sounds and cache modifiers keep their original
paths, and no rescan runs. -/
theorem relink_reload_failure_amended (records : List Record) (item : Record)
    (fs : List String) (relp : String → String) (st : BlendData)
    (pre post : List Image) (bad : Image)
    (hsplit : st.images = pre ++ bad :: post)
    (hpre : ∀ i ∈ pre, i.filepath = item.filepath → i.library = none →
      i.reload_ok = true)
    (hbf : bad.filepath = item.filepath) (hbl : bad.library = none)
    (hbr : bad.reload_ok = false)
    (hnp : item.new_filepath ≠ "")
    (hfe : (if hasUdim item.new_filepath then
        check_udim_exists item.new_filepath fs
      else fs.contains item.new_filepath) = true) :
    relink_single_file records item fs relp st =
      ⟨{ st with
          images := pre.map (stepImg item.filepath item.new_filepath) ++
            { bad with filepath := item.new_filepath } :: post },
        true, 0, 0, 0, false⟩ := by
  have habort := relinkImagesDirect_abort item.filepath item.new_filepath bad
    post hbf hbl hbr pre hpre
  rw [relink_single_file, if_neg hnp, if_neg (by rw [hfe]; simp), hsplit,
    if_pos (by rw [habort]), habort]

/-- The image whose reload fails, for the C2 witness and counterexample. -/
def c2bad : Image := { name := "bad", filepath := "/o/t.png", reload_ok := false }

/-- A second local image with the same stored path. -/
def c2good : Image := { name := "good", filepath := "/o/t.png" }

/-- The record being relinked in the C2 scenario. -/
def c2item : Record := { filepath := "/o/t.png", new_filepath := "/n/t.png" }

/-- `bpy.data` for the C2 scenario. -/
def c2st : BlendData := { images := [c2bad, c2good] }

/-- Witness for C2 (amended): the failing image sits first; its path
update is kept, the second matching image is left untouched, the
operator is cancelled with no rescan. -/
theorem relink_reload_failure_amended_witness :
    c2st.images = [] ++ c2bad :: [c2good] ∧ c2bad.reload_ok = false ∧
      relink_single_file [c2item] c2item ["/n/t.png"] id c2st =
        ⟨{ c2st with
            images := [].map (stepImg c2item.filepath c2item.new_filepath) ++
              { c2bad with filepath := c2item.new_filepath } :: [c2good] },
          true, 0, 0, 0, false⟩ :=
  ⟨rfl, rfl,
    relink_reload_failure_amended [c2item] c2item ["/n/t.png"] id c2st
      [] [c2good] c2bad rfl (by decide) rfl rfl rfl (by decide) (by decide)⟩

/-- Counterexample to C2 as stated: the reload failure on the first image
does not roll its path update back (first entry now carries the new
path), but it does block the second image with the same stored path from
being updated — the operator returns `CANCELLED` immediately. -/
theorem relink_reload_failure_counterexample :
    (relink_single_file [c2item] c2item ["/n/t.png"] id c2st).cancelled = true ∧
      (relink_single_file [c2item] c2item ["/n/t.png"] id c2st).state.images.map
        (fun i => i.filepath) = ["/n/t.png", "/o/t.png"] := by
  refine ⟨?_, ?_⟩ <;> decide

/-! ### Claim C3: failure effects on state and the rescan -/

/-- Claim C3 (amended): a relink that fails validation — empty candidate
path, or candidate path not on disk — leaves the prior state untouched
and performs no rescan; and whenever the operator does not cancel, the
full rescan follows.  (A reload failure after validation is the
exception refuted by the counterexample: it cancels with an already
applied path update and no rescan.) -/
theorem relink_failure_state_amended (records : List Record) (item : Record)
    (fs : List String) (relp : String → String) (st : BlendData) :
    (item.new_filepath = "" →
      relink_single_file records item fs relp st = ⟨st, true, 0, 0, 0, false⟩) ∧
      ((if hasUdim item.new_filepath then
          check_udim_exists item.new_filepath fs
        else fs.contains item.new_filepath) = false →
        relink_single_file records item fs relp st = ⟨st, true, 0, 0, 0, false⟩) ∧
      ((relink_single_file records item fs relp st).cancelled = false →
        (relink_single_file records item fs relp st).rescan = true) := by
  refine ⟨?_, ?_, ?_⟩
  · intro h
    rw [relink_single_file, if_pos h]
  · intro h
    rw [relink_single_file]
    by_cases hnp : item.new_filepath = ""
    · rw [if_pos hnp]
    · rw [if_neg hnp, if_pos h]
  · intro h
    by_cases h1 : item.new_filepath = ""
    · rw [relink_single_file, if_pos h1] at h
      exact absurd h (by simp)
    · by_cases h2 : (if hasUdim item.new_filepath then
          check_udim_exists item.new_filepath fs
        else fs.contains item.new_filepath) = false
      · rw [relink_single_file, if_neg h1, if_pos h2] at h
        exact absurd h (by simp)
      · by_cases h3 : (relinkImagesDirect item.filepath item.new_filepath
            st.images).aborted = true
        · rw [relink_single_file, if_neg h1, if_neg h2, if_pos h3] at h
          exact absurd h (by simp)
        · rw [relink_single_file, if_neg h1, if_neg h2, if_neg h3]
          exact (relinkFinish_flags records item fs relp st).2

/-- The record of the C3 witness: its candidate path exists nowhere. -/
def c3item : Record := { filepath := "/p/x.png", new_filepath := "/nope.png" }

/-- `bpy.data` for the C3 witness. -/
def c3st : BlendData := { images := [{ name := "x", filepath := "/p/x.png" }] }

/-- Witness for C3 (amended): a validation failure (candidate path not on
disk) leaves the state untouched, cancelled, without rescan. -/
theorem relink_failure_state_amended_witness :
    ((if hasUdim c3item.new_filepath then
        check_udim_exists c3item.new_filepath ([] : List String)
      else List.contains ([] : List String) c3item.new_filepath) = false) ∧
      relink_single_file [c3item] c3item [] id c3st =
        ⟨c3st, true, 0, 0, 0, false⟩ :=
  ⟨by decide,
    (relink_failure_state_amended [c3item] c3item [] id c3st).2.1 (by decide)⟩

/-- The failing image of the C3 counterexample. -/
def c3bad : Image := { name := "x", filepath := "/p/x.png", reload_ok := false }

/-- `bpy.data` for the C3 counterexample. -/
def c3cst : BlendData := { images := [c3bad] }

/-- The record of the C3 counterexample, with an existing candidate. -/
def c3citem : Record := { filepath := "/p/x.png", new_filepath := "/q/x.png" }

/-- Counterexample to C3 as stated: this relink reports an error
(`CANCELLED`) yet the state is not the prior state — the image's path was
already updated — and no rescan runs, leaving the record collection out
of sync with the references. -/
theorem relink_failure_state_counterexample :
    (relink_single_file [c3citem] c3citem ["/q/x.png"] id c3cst).cancelled
        = true ∧
      (relink_single_file [c3citem] c3citem ["/q/x.png"] id c3cst).state ≠ c3cst ∧
      (relink_single_file [c3citem] c3citem ["/q/x.png"] id c3cst).rescan
        = false := by
  refine ⟨?_, ?_, ?_⟩ <;> decide

/-! ### The orphan purge (`FILE_OT_purge_all_orphans.execute`,
src lines 828–861)

The operator combines the host's built-in
`bpy.ops.outliner.orphans_purge(do_recursive=True)` — modelled from the
host's documented behaviour: repeatedly drop every datablock that no
remaining datablock references, scenes being never purged — with its own
removal of objects that are linked to no scene.  A scene block lists the
names of the objects in that scene in its `refs`. -/

/-- The kind of a datablock, as far as the purge distinguishes them. -/
inductive BKind where
  | scene
  | object
  | data
deriving DecidableEq

/-- A datablock: name, kind, and the names of the datablocks it
references. -/
structure Block where
  name : String
  kind : BKind
  refs : List String := []
deriving DecidableEq

/-- A datablock has a user when some live block references its name. -/
def hasUser (blocks : List Block) (b : Block) : Bool :=
  blocks.any fun b2 => decide (b.name ∈ b2.refs)

/-- One round of the host's purge: drop every non-scene block without a
user. -/
def purgeRound (blocks : List Block) : List Block :=
  blocks.filter fun b => (b.kind == BKind.scene) || hasUser blocks b

/-- The recursive built-in purge: iterate rounds until nothing is
removed. -/
def orphansPurge (blocks : List Block) : List Block :=
  if h : (purgeRound blocks).length < blocks.length then
    orphansPurge (purgeRound blocks)
  else blocks
termination_by blocks.length

/-- An object name linked to at least one scene
(`obj.name in scene.objects.keys()`, src lines 839–845). -/
def inAnyScene (blocks : List Block) (nm : String) : Bool :=
  blocks.any fun b => (b.kind == BKind.scene) && decide (nm ∈ b.refs)

/-- Step 1 of the operator (src lines 836–855): remove every object that
is in no scene, counting the removals. -/
def removeOrphanObjects (blocks : List Block) : List Block × Nat :=
  let keep := blocks.filter fun b =>
    !((b.kind == BKind.object) && !(inAnyScene blocks b.name))
  (keep, blocks.length - keep.length)

/-- `FILE_OT_purge_all_orphans.execute` (src lines 828–861): built-in
purge, object removal, built-in purge again; the reported count is the
number of removed objects. -/
def purge_execute (blocks : List Block) : List Block × Nat :=
  let s1 := orphansPurge blocks
  let s2 := removeOrphanObjects s1
  let s3 := orphansPurge s2.1
  (s3, s2.2)

theorem filter_len_eq {α : Type} (p : α → Bool) :
    ∀ l : List α, l.length ≤ (l.filter p).length → l.filter p = l := by
  intro l
  induction l with
  | nil => intro _; rfl
  | cons a t ih =>
    intro h
    rw [List.filter_cons] at h ⊢
    cases hpa : p a with
    | true =>
      rw [hpa] at h
      simp at h
      rw [if_pos rfl, ih (by omega)]
    | false =>
      exfalso
      rw [hpa] at h
      simp at h
      have := List.length_filter_le p t
      omega

theorem purgeRound_of_not_lt {s : List Block}
    (h : ¬(purgeRound s).length < s.length) : purgeRound s = s := by
  rw [purgeRound] at h ⊢
  exact filter_len_eq _ s (by omega)

theorem orphansPurge_fix (s : List Block) :
    purgeRound (orphansPurge s) = orphansPurge s := by
  induction s using orphansPurge.induct with
  | case1 s h ih =>
    rw [orphansPurge, dif_pos h]
    exact ih
  | case2 s h =>
    rw [orphansPurge, dif_neg h]
    exact purgeRound_of_not_lt h

theorem orphansPurge_idem (s : List Block) :
    orphansPurge (orphansPurge s) = orphansPurge s := by
  have hfix := orphansPurge_fix s
  rw [orphansPurge, dif_neg (by rw [hfix]; omega)]

theorem mem_orphansPurge {b : Block} : ∀ {s : List Block},
    b ∈ orphansPurge s → b ∈ s := by
  intro s
  induction s using orphansPurge.induct with
  | case1 s h ih =>
    rw [orphansPurge, dif_pos h]
    intro hb
    exact List.mem_of_mem_filter (ih hb)
  | case2 s h =>
    rw [orphansPurge, dif_neg h]
    exact id

theorem scene_mem_orphansPurge {b : Block} (hk : b.kind = BKind.scene) :
    ∀ {s : List Block}, b ∈ s → b ∈ orphansPurge s := by
  intro s
  induction s using orphansPurge.induct with
  | case1 s h ih =>
    rw [orphansPurge, dif_pos h]
    intro hb
    refine ih (List.mem_filter.mpr ⟨hb, ?_⟩)
    simp [hk]
  | case2 s h =>
    rw [orphansPurge, dif_neg h]
    exact id

theorem inAnyScene_iff (blocks : List Block) (nm : String) :
    inAnyScene blocks nm = true ↔
      ∃ b ∈ blocks, b.kind = BKind.scene ∧ nm ∈ b.refs := by
  simp [inAnyScene, List.any_eq_true]

theorem removeOrphanObjects_keep_scene {b : Block} {s : List Block}
    (hb : b ∈ s) (hk : b.kind = BKind.scene) :
    b ∈ (removeOrphanObjects s).1 := by
  refine List.mem_filter.mpr ⟨hb, ?_⟩
  simp [hk]

theorem removeOrphanObjects_obj_in_scene {b : Block} {s : List Block}
    (hb : b ∈ (removeOrphanObjects s).1) (hk : b.kind = BKind.object) :
    inAnyScene s b.name = true := by
  have hcond := (List.mem_filter.mp hb).2
  cases hin : inAnyScene s b.name with
  | true => rfl
  | false =>
    exfalso
    rw [hk, hin] at hcond
    simp at hcond

theorem removeOrphanObjects_fix {s : List Block}
    (h : ∀ b ∈ s, b.kind = BKind.object → inAnyScene s b.name = true) :
    removeOrphanObjects s = (s, 0) := by
  have hkeep : s.filter (fun b =>
      !((b.kind == BKind.object) && !(inAnyScene s b.name))) = s := by
    apply List.filter_eq_self.mpr
    intro b hb
    cases hk : b.kind with
    | object =>
      rw [h b hb hk]
      simp
    | scene => simp [hk]
    | data => simp [hk]
  simp only [removeOrphanObjects]
  rw [hkeep]
  simp

/-- Claim C9: the orphan purge is idempotent — a second run immediately
after a first removes nothing and reports a removed count of zero. -/
theorem purge_idempotent (blocks : List Block) :
    purge_execute (purge_execute blocks).1 = ((purge_execute blocks).1, 0) := by
  have hrun1 : (purge_execute blocks).1 =
      orphansPurge ((removeOrphanObjects (orphansPurge blocks)).1) := rfl
  have hobj2 : ∀ b ∈ (removeOrphanObjects (orphansPurge blocks)).1,
      b.kind = BKind.object →
      inAnyScene ((removeOrphanObjects (orphansPurge blocks)).1) b.name = true := by
    intro b hb hk
    have h1 := removeOrphanObjects_obj_in_scene hb hk
    obtain ⟨sc, hsc, hsck, hscr⟩ := (inAnyScene_iff _ _).mp h1
    exact (inAnyScene_iff _ _).mpr
      ⟨sc, removeOrphanObjects_keep_scene hsc hsck, hsck, hscr⟩
  have hobj3 : ∀ b ∈ (purge_execute blocks).1, b.kind = BKind.object →
      inAnyScene ((purge_execute blocks).1) b.name = true := by
    intro b hb hk
    rw [hrun1] at hb
    have hb2 := mem_orphansPurge hb
    have h2 := hobj2 b hb2 hk
    obtain ⟨sc, hsc, hsck, hscr⟩ := (inAnyScene_iff _ _).mp h2
    refine (inAnyScene_iff _ _).mpr ⟨sc, ?_, hsck, hscr⟩
    rw [hrun1]
    exact scene_mem_orphansPurge hsck hsc
  have hidem : orphansPurge ((purge_execute blocks).1) =
      (purge_execute blocks).1 := by
    rw [hrun1]
    exact orphansPurge_idem _
  show (orphansPurge ((removeOrphanObjects
      (orphansPurge ((purge_execute blocks).1))).1),
    (removeOrphanObjects (orphansPurge ((purge_execute blocks).1))).2) = _
  rw [hidem, removeOrphanObjects_fix hobj3, hidem]

end BB
